import Mathlib

/-!
Verification development for the PersonaForge dialog-graph core.

This file gives a shallow embedding of the core of the repository:
the dialog data model (`src/types/models.ts` together with the dynamically
attached node fields used throughout the code), the graph store mutations and
bounded history (`src/store/dialogStore.ts`), the path/traversal utilities
(`src/utils/nodeTree.ts`) and the Ren'Py script compiler
(`src/utils/renpyExport.ts`).

Conventions of the embedding:
* A JS object used as a string-keyed map becomes an insertion-ordered
  association list `List (String × α)`; `Object.values`/`Object.entries`
  iterate that list in order, as JS does for string keys.
* Optional (possibly `undefined`) fields become `Option`.
* JS numbers that the code uses as integers become `Int`/`Nat`; the
  `NaN` value that can arise from coercing a non-numeric string is a
  dedicated constructor of the `Value` type (its JS `typeof` is `number`).
* In-place `Set` mutation threaded through recursive calls becomes explicit
  state passing; `new Set(visited)` copies become value passing.
* The recursive script emitter is not total on all graphs (this is proved
  below), so it is embedded with an explicit recursion-depth budget `fuel`;
  `none` means the corresponding JS run exceeds every stack depth.
-/

namespace PersonaForge

/-- Speaker tag of a dialog node (`'NPC' | 'player'`). -/
inductive Speaker where
  | NPC
  | player
deriving DecidableEq, Repr

/-- The dynamic `type` tag on nodes.  A missing `type` field means `'dialog'`. -/
inductive NType where
  | dialog
  | setVariable
  | changeVariable
  | setBackground
  | soundPlay
  | musicSet
  | ifStatement
  | sceneDescription
  | switchCase
deriving DecidableEq, Repr

/-- A `string | number` JS value; `nan` is the number `NaN`, which arises from
numeric coercion of a non-numeric string. -/
inductive Value where
  | num (n : Int)
  | str (s : String)
  | nan
deriving DecidableEq, Repr

/-- JS `typeof v === 'number'` (`NaN` is a number). -/
def Value.isNumberType : Value → Bool
  | .num _ => true
  | .nan => true
  | .str _ => false

/-- JS falsiness of a `string | number` value (`0`, `''` and `NaN` are falsy). -/
def Value.isFalsy : Value → Bool
  | .num n => n == 0
  | .str s => s.data.isEmpty
  | .nan => true

/-- Source `variableOperation` values (`'set' | 'add' | 'subtract'`). -/
inductive VOp where
  | set
  | add
  | subtract
deriving DecidableEq, Repr

/-- Source `conditionOperator` values of an if-statement node. -/
inductive CmpOp where
  | eq
  | ne
  | gt
  | lt
  | ge
  | le
deriving DecidableEq, Repr

/-- One declared case of a switch-case node (`{ value, nodeId? }`). -/
structure SwitchBranch where
  value : Value
  nodeId : Option String := none
deriving DecidableEq, Repr

/-- A dialog node.  The base interface is `DialogNode` in
`src/types/models.ts`; the remaining fields are attached dynamically by the
editor components and consumed by `nodeTree.ts` / `renpyExport.ts`. -/
structure DialogNode where
  id : String
  speaker : Option Speaker := none
  text : String := ""
  characterId : Option String := none
  emotion : Option String := none
  showAvatar : Option Bool := none
  type : Option NType := none
  variableName : Option String := none
  variableValue : Option Value := none
  variableOperation : Option VOp := none
  backgroundImage : Option String := none
  soundFile : Option String := none
  musicFile : Option String := none
  fadeIn : Option Int := none
  fadeOut : Option Int := none
  conditionVariable : Option String := none
  conditionOperator : Option CmpOp := none
  conditionValue : Option Value := none
  switchVariable : Option String := none
  cases : Option (List SwitchBranch) := none
  childNodeIds : List String := []
  parentNodeIds : List String := []
  createdAt : Nat := 0
  updatedAt : Nat := 0
deriving DecidableEq, Repr

/-- Source `node.type || 'dialog'`. -/
def DialogNode.nodeType (n : DialogNode) : NType :=
  n.type.getD .dialog

/-- A node position entry of the cosmetic `nodePositions` side table. -/
structure NodePos where
  x : Int
  y : Int
deriving DecidableEq, Repr

/-- The `Dialog` record (`src/types/models.ts`): a rooted graph of nodes keyed
by id, plus cosmetic data. -/
structure Dialog where
  id : String := ""
  characterId : Option String := none
  rootNodeId : Option String := none
  nodes : List (String × DialogNode) := []
  nodePositions : Option (List (String × NodePos)) := none
  sceneId : Option String := none
  createdAt : Nat := 0
  updatedAt : Nat := 0
deriving DecidableEq, Repr

/-- Source `Character` record; only the fields the compiler reads. -/
structure Character where
  id : String
  name : String
  personality : String := ""
  visualPrompt : String := ""
deriving DecidableEq, Repr

/-- Source `nodes[k]` on a JS object embedded as an ordered association list. -/
def getNode (nodes : List (String × DialogNode)) (k : String) : Option DialogNode :=
  (nodes.find? (fun p => p.1 == k)).map (·.2)

/-- Source `nodes[k] = v`: replace in place when the key exists, append otherwise. -/
def setEntry (nodes : List (String × DialogNode)) (k : String) (v : DialogNode) :
    List (String × DialogNode) :=
  if nodes.any (fun p => p.1 == k) then
    nodes.map (fun p => if p.1 == k then (k, v) else p)
  else
    nodes ++ [(k, v)]

/-- Update the node stored at key `k` in place (no-op when the key is absent),
as JS field mutation through `nodes[k]` does. -/
def updateEntry (nodes : List (String × DialogNode)) (k : String)
    (f : DialogNode → DialogNode) : List (String × DialogNode) :=
  nodes.map (fun p => if p.1 == k then (p.1, f p.2) else p)

/-- Source `delete nodes[k]`. -/
def removeEntry (nodes : List (String × DialogNode)) (k : String) :
    List (String × DialogNode) :=
  nodes.filter (fun p => p.1 != k)

/-- JS `String.prototype.trim`, as a kernel-computable char-list operation. -/
def jsTrim (s : String) : String :=
  String.mk (((s.data.dropWhile Char.isWhitespace).reverse.dropWhile Char.isWhitespace).reverse)

/-- JS `String.prototype.toLowerCase` on the ASCII range the tool uses. -/
def lowerStr (s : String) : String :=
  String.mk (s.data.map Char.toLower)

/-- Integer-literal parsing (the fragment of JS `Number()` the tool exercises):
an optional sign followed by at least one digit. -/
def intParse (l : List Char) : Option Int :=
  let digitsToNat : List Char → Option Nat := fun ds =>
    if ds.isEmpty then none
    else if ds.all Char.isDigit then
      some (ds.foldl (fun acc d => 10 * acc + (d.toNat - 48)) 0)
    else none
  match l with
  | '-' :: rest => (digitsToNat rest).map (fun n => -(n : Int))
  | '+' :: rest => (digitsToNat rest).map (fun n => (n : Int))
  | _ => (digitsToNat l).map (fun n => (n : Int))

/-- JS falsiness of a nullable string (`null`/`undefined` and `''` are falsy). -/
def strOptFalsy : Option String → Bool
  | none => true
  | some s => s.data.isEmpty

/-! ### GraphStore mutations (`src/store/dialogStore.ts`)

Every mutation is `set(produce(state => { if (!state.currentDialog) return; … }))`
and touches only `state.currentDialog`, so we embed each one as a pure function
on `Dialog` and lift it to the store state with `onDialog`.  `Date.now()` is an
input `now`. -/

/-- Source `Partial<DialogNode>` as passed to `updateNode`.  The outer `Option` is key
presence in the update object; a present key overwrites the field (including
overwriting with `undefined`, hence `Option (Option _)` for optional fields). -/
structure NodeUpdates where
  id : Option String := none
  speaker : Option (Option Speaker) := none
  text : Option String := none
  characterId : Option (Option String) := none
  emotion : Option (Option String) := none
  showAvatar : Option (Option Bool) := none
  type : Option (Option NType) := none
  variableName : Option (Option String) := none
  variableValue : Option (Option Value) := none
  variableOperation : Option (Option VOp) := none
  backgroundImage : Option (Option String) := none
  soundFile : Option (Option String) := none
  musicFile : Option (Option String) := none
  fadeIn : Option (Option Int) := none
  fadeOut : Option (Option Int) := none
  conditionVariable : Option (Option String) := none
  conditionOperator : Option (Option CmpOp) := none
  conditionValue : Option (Option Value) := none
  switchVariable : Option (Option String) := none
  cases : Option (Option (List SwitchBranch)) := none
  childNodeIds : Option (List String) := none
  parentNodeIds : Option (List String) := none
  createdAt : Option Nat := none
deriving DecidableEq, Repr

/-- Source `{ ...node, ...updates, updatedAt: Date.now() }`. -/
def applyUpdates (now : Nat) (n : DialogNode) (u : NodeUpdates) : DialogNode where
  id := u.id.getD n.id
  speaker := u.speaker.getD n.speaker
  text := u.text.getD n.text
  characterId := u.characterId.getD n.characterId
  emotion := u.emotion.getD n.emotion
  showAvatar := u.showAvatar.getD n.showAvatar
  type := u.type.getD n.type
  variableName := u.variableName.getD n.variableName
  variableValue := u.variableValue.getD n.variableValue
  variableOperation := u.variableOperation.getD n.variableOperation
  backgroundImage := u.backgroundImage.getD n.backgroundImage
  soundFile := u.soundFile.getD n.soundFile
  musicFile := u.musicFile.getD n.musicFile
  fadeIn := u.fadeIn.getD n.fadeIn
  fadeOut := u.fadeOut.getD n.fadeOut
  conditionVariable := u.conditionVariable.getD n.conditionVariable
  conditionOperator := u.conditionOperator.getD n.conditionOperator
  conditionValue := u.conditionValue.getD n.conditionValue
  switchVariable := u.switchVariable.getD n.switchVariable
  cases := u.cases.getD n.cases
  childNodeIds := u.childNodeIds.getD n.childNodeIds
  parentNodeIds := u.parentNodeIds.getD n.parentNodeIds
  createdAt := u.createdAt.getD n.createdAt
  updatedAt := now

/-- Source `addNode(node)`: insert, make it root when no root is set, bump `updatedAt`. -/
def addNodeG (now : Nat) (n : DialogNode) (d : Dialog) : Dialog :=
  let d1 : Dialog := { d with nodes := setEntry d.nodes n.id n }
  let d2 : Dialog :=
    if strOptFalsy d1.rootNodeId then { d1 with rootNodeId := some n.id } else d1
  { d2 with updatedAt := now }

/-- Source `updateNode(nodeId, updates)`: merge fields, bump timestamps; silent no-op
when the id is absent. -/
def updateNodeG (now : Nat) (nodeId : String) (u : NodeUpdates) (d : Dialog) : Dialog :=
  match getNode d.nodes nodeId with
  | none => d
  | some n =>
      { d with nodes := setEntry d.nodes nodeId (applyUpdates now n u), updatedAt := now }

/-- Strip `nodeId` from a former parent's `childNodeIds`. -/
def stripChild (nodeId : String) (p : DialogNode) : DialogNode :=
  { p with childNodeIds := p.childNodeIds.filter (fun i => i != nodeId) }

/-- Strip `nodeId` from a former child's `parentNodeIds`. -/
def stripParent (nodeId : String) (c : DialogNode) : DialogNode :=
  { c with parentNodeIds := c.parentNodeIds.filter (fun i => i != nodeId) }

/-- Source `deleteNode(nodeId)`: rewire every neighbor's edge list, then remove the
node; silent no-op when the id is absent. -/
def deleteNodeG (now : Nat) (nodeId : String) (d : Dialog) : Dialog :=
  match getNode d.nodes nodeId with
  | none => d
  | some n =>
      let ns1 := n.parentNodeIds.foldl
        (fun acc pid => updateEntry acc pid (stripChild nodeId)) d.nodes
      let ns2 := n.childNodeIds.foldl
        (fun acc cid => updateEntry acc cid (stripParent nodeId)) ns1
      { d with nodes := removeEntry ns2 nodeId, updatedAt := now }

/-- Source `linkNodes(parentId, childId)`: idempotent edge insertion in both
directions; no-op when either endpoint is missing. -/
def linkNodesG (now : Nat) (parentId childId : String) (d : Dialog) : Dialog :=
  match getNode d.nodes parentId, getNode d.nodes childId with
  | some _, some _ =>
      let ns1 := updateEntry d.nodes parentId (fun p =>
        if childId ∈ p.childNodeIds then p
        else { p with childNodeIds := p.childNodeIds ++ [childId] })
      let ns2 := updateEntry ns1 childId (fun c =>
        if parentId ∈ c.parentNodeIds then c
        else { c with parentNodeIds := c.parentNodeIds ++ [parentId] })
      { d with nodes := ns2, updatedAt := now }
  | _, _ => d

/-- Source `unlinkNodes(parentId, childId)`: edge removal in both directions; no-op
when either endpoint is missing. -/
def unlinkNodesG (now : Nat) (parentId childId : String) (d : Dialog) : Dialog :=
  match getNode d.nodes parentId, getNode d.nodes childId with
  | some _, some _ =>
      let ns1 := updateEntry d.nodes parentId (fun p =>
        { p with childNodeIds := p.childNodeIds.filter (fun i => i != childId) })
      let ns2 := updateEntry ns1 childId (fun c =>
        { c with parentNodeIds := c.parentNodeIds.filter (fun i => i != parentId) })
      { d with nodes := ns2, updatedAt := now }
  | _, _ => d

/-- One `Object.assign` step of `updateNodePositions`. -/
def setPosEntry (l : List (String × NodePos)) (k : String) (v : NodePos) :
    List (String × NodePos) :=
  if l.any (fun p => p.1 == k) then
    l.map (fun p => if p.1 == k then (k, v) else p)
  else
    l ++ [(k, v)]

/-- Source `updateNodePositions(positions)`: merge cosmetic coordinates. -/
def updateNodePositionsG (now : Nat) (positions : List (String × NodePos))
    (d : Dialog) : Dialog :=
  let base := d.nodePositions.getD []
  { d with nodePositions := some (positions.foldl (fun acc p => setPosEntry acc p.1 p.2) base),
           updatedAt := now }

/-- The slice of the store state that the graph/history operations touch. -/
structure StoreState where
  currentDialog : Option Dialog
  history : List Dialog
  historyIndex : Int
deriving DecidableEq, Repr

/-- Initial store state (`currentDialog: null, history: [], historyIndex: -1`). -/
def initialStore : StoreState where
  currentDialog := none
  history := []
  historyIndex := -1

/-- Lift a dialog-level mutation to the store: every mutation starts with
`if (!state.currentDialog) return`. -/
def onDialog (f : Dialog → Dialog) (s : StoreState) : StoreState :=
  match s.currentDialog with
  | none => s
  | some d => { s with currentDialog := some (f d) }

/-- A graph mutation operation of the store, with its `Date.now()` input. -/
inductive Mutation where
  | addNode (now : Nat) (n : DialogNode)
  | updateNode (now : Nat) (nodeId : String) (u : NodeUpdates)
  | deleteNode (now : Nat) (nodeId : String)
  | linkNodes (now : Nat) (parentId childId : String)
  | unlinkNodes (now : Nat) (parentId childId : String)
  | updateNodePositions (now : Nat) (positions : List (String × NodePos))
deriving Repr

/-- Dispatch a mutation to its dialog-level implementation. -/
def Mutation.onGraph : Mutation → Dialog → Dialog
  | .addNode now n => addNodeG now n
  | .updateNode now i u => updateNodeG now i u
  | .deleteNode now i => deleteNodeG now i
  | .linkNodes now p c => linkNodesG now p c
  | .unlinkNodes now p c => unlinkNodesG now p c
  | .updateNodePositions now ps => updateNodePositionsG now ps

/-- Apply a mutation to the store state. -/
def applyMutation (m : Mutation) (s : StoreState) : StoreState :=
  onDialog m.onGraph s

/-- JS `list.slice(0, e)` (a negative bound counts from the end). -/
def jsSliceTo (l : List Dialog) (e : Int) : List Dialog :=
  if e < 0 then l.take (l.length - (-e).toNat) else l.take e.toNat

/-- JS `list[i]` (out-of-range reads give `undefined`). -/
def jsIndex (l : List Dialog) (i : Int) : Option Dialog :=
  if i < 0 then none else l.get? i.toNat

/-- Source `saveToHistory()`: truncate the future, push a deep copy of the current
graph, and evict the oldest entry once the count exceeds 50. -/
def saveToHistory (s : StoreState) : StoreState :=
  match s.currentDialog with
  | none => s
  | some d =>
      let h1 := jsSliceTo s.history (s.historyIndex + 1)
      let h2 := h1 ++ [d]
      let i2 : Int := (h2.length : Int) - 1
      if h2.length > 50 then
        { s with history := h2.drop 1, historyIndex := i2 - 1 }
      else
        { s with history := h2, historyIndex := i2 }

/-- Source `undo()`: move the index back and load that snapshot; no-op at the lower
boundary. -/
def undo (s : StoreState) : StoreState :=
  if s.historyIndex > 0 then
    { s with historyIndex := s.historyIndex - 1,
             currentDialog := jsIndex s.history (s.historyIndex - 1) }
  else s

/-- Source `redo()`: move the index forward and load that snapshot; no-op at the upper
boundary. -/
def redo (s : StoreState) : StoreState :=
  if s.historyIndex < (s.history.length : Int) - 1 then
    { s with historyIndex := s.historyIndex + 1,
             currentDialog := jsIndex s.history (s.historyIndex + 1) }
  else s

/-! ### PathResolver (`src/utils/nodeTree.ts`)

The two depth-first searches of `getNodePath` guard recursion with a visited
set that only ever grows, so their recursion depth never exceeds the number of
map entries plus one.  We embed them with an explicit depth budget `fuel`; the
wrappers pass `nodes.length + 2`, which the visited-set argument shows is
always sufficient. -/

/-- The reverse-adjacency lookup of `getNodePath`: all map keys whose node
lists `childId` as a child, in entry order (one occurrence per listing). -/
def parentsOf (nodes : List (String × DialogNode)) (childId : String) : List String :=
  nodes.foldl
    (fun acc p =>
      acc ++ (p.2.childNodeIds.filter (fun c => c == childId)).map (fun _ => p.1))
    []

mutual

/-- Source `buildPathBackwards`: walk from a node toward the root through parent
edges, first success wins; returns the found path in push order (node first)
and the grown visited set. -/
def buildPathBackwards (nodes : List (String × DialogNode)) (rootNodeId : String) :
    Nat → String → List String → Option (List DialogNode) × List String
  | 0, _, visited => (none, visited)
  | fuel + 1, nodeId, visited =>
      if nodeId ∈ visited then (none, visited)
      else
        let visited1 := visited ++ [nodeId]
        match getNode nodes nodeId with
        | none => (none, visited1)
        | some node =>
            if nodeId = rootNodeId then (some [node], visited1)
            else
              match tryParents nodes rootNodeId fuel (parentsOf nodes nodeId) visited1 with
              | (some sub, visited2) => (some (node :: sub), visited2)
              | (none, visited2) => (none, visited2)
termination_by fuel nodeId visited => (fuel, 0)

/-- Try each parent in order until one reaches the root. -/
def tryParents (nodes : List (String × DialogNode)) (rootNodeId : String) :
    Nat → List String → List String → Option (List DialogNode) × List String
  | _, [], visited => (none, visited)
  | fuel, p :: ps, visited =>
      match buildPathBackwards nodes rootNodeId fuel p visited with
      | (some sub, visited1) => (some sub, visited1)
      | (none, visited1) => tryParents nodes rootNodeId fuel ps visited1
termination_by fuel ps visited => (fuel, ps.length + 1)

end

mutual

/-- The forward-DFS fallback of `getNodePath`; returns the root-to-target path
in push order and the grown visited set. -/
def forwardDfs (nodes : List (String × DialogNode)) (targetNodeId : String) :
    Nat → String → List String → Option (List DialogNode) × List String
  | 0, _, visited => (none, visited)
  | fuel + 1, nodeId, visited =>
      if nodeId ∈ visited then (none, visited)
      else
        let visited1 := visited ++ [nodeId]
        match getNode nodes nodeId with
        | none => (none, visited1)
        | some node =>
            if nodeId = targetNodeId then (some [node], visited1)
            else
              match forwardDfsList nodes targetNodeId fuel node.childNodeIds visited1 with
              | (some sub, visited2) => (some (node :: sub), visited2)
              | (none, visited2) => (none, visited2)
termination_by fuel nodeId visited => (fuel, 0)

/-- Try each child in order until one reaches the target. -/
def forwardDfsList (nodes : List (String × DialogNode)) (targetNodeId : String) :
    Nat → List String → List String → Option (List DialogNode) × List String
  | _, [], visited => (none, visited)
  | fuel, c :: cs, visited =>
      match forwardDfs nodes targetNodeId fuel c visited with
      | (some sub, visited1) => (some sub, visited1)
      | (none, visited1) => forwardDfsList nodes targetNodeId fuel cs visited1
termination_by fuel cs visited => (fuel, cs.length + 1)

end

/-- Source `getNodePath(nodes, rootNodeId, targetNodeId)` with explicit depth budget:
backward walk first, forward DFS as fallback, `[]` when neither succeeds. -/
def getNodePathFuel (fuel : Nat) (nodes : List (String × DialogNode))
    (rootNodeId : Option String) (targetNodeId : String) : List DialogNode :=
  if strOptFalsy rootNodeId then []
  else
    match rootNodeId with
    | none => []
    | some r =>
        match getNode nodes r, getNode nodes targetNodeId with
        | some rn, some _ =>
            if r = targetNodeId then [rn]
            else
              match buildPathBackwards nodes r fuel targetNodeId [] with
              | (some path, _) => path.reverse
              | (none, _) =>
                  match forwardDfs nodes targetNodeId fuel r [] with
                  | (some path, _) => path
                  | (none, _) => []
        | _, _ => []

/-- Depth budget that the visited-set guard makes sufficient for both searches. -/
def pathFuel (nodes : List (String × DialogNode)) : Nat :=
  nodes.length + 2

/-- Source `getNodePath` at the canonical (sufficient) depth budget. -/
def getNodePath (nodes : List (String × DialogNode)) (rootNodeId : Option String)
    (targetNodeId : String) : List DialogNode :=
  getNodePathFuel (pathFuel nodes) nodes rootNodeId targetNodeId

/-- Source `findActualRootNode`: the stored root when valid, otherwise the first key
whose node has no parents. -/
def findActualRootNode (nodes : List (String × DialogNode))
    (rootNodeId : Option String) : Option String :=
  if !strOptFalsy rootNodeId &&
      (match rootNodeId with
       | some r => (getNode nodes r).isSome
       | none => false) then
    rootNodeId
  else
    (nodes.find? (fun p => p.2.parentNodeIds.isEmpty)).map (·.1)

/-- Source `node.type !== undefined && node.type !== 'dialog'`. -/
def isSpecialNode (n : DialogNode) : Bool :=
  n.type != none && n.type != some NType.dialog

/-- The filter predicate of `getConversationHistory`. -/
def isConversationNode (n : DialogNode) : Bool :=
  n.nodeType == NType.dialog ||
    (n.type == none && (n.speaker == some Speaker.NPC || n.speaker == some Speaker.player))

/-- Source `getConversationHistory`: the node path restricted to dialog nodes, after
read-only root repair. -/
def getConversationHistory (nodes : List (String × DialogNode))
    (rootNodeId : Option String) (currentNodeId : String) : List DialogNode :=
  let actualRootNodeId := findActualRootNode nodes rootNodeId
  (getNodePath nodes actualRootNodeId currentNodeId).filter isConversationNode

/-- The intermediate `result`/`included` accumulation inside
`getAllReachableNodes` (source lines 122–167): conversation-path nodes, then
per path node its special children, their special children one hop further,
and its special parents.  The source computes this list and then discards it
in favor of `orderedResult`. -/
def reachableInternalResult (nodes : List (String × DialogNode))
    (conversationPath : List DialogNode) : List DialogNode :=
  let step0 : List DialogNode × List String :=
    conversationPath.foldl
      (fun (acc : List DialogNode × List String) node =>
        if node.id ∈ acc.2 then acc else (acc.1 ++ [node], acc.2 ++ [node.id]))
      ([], [])
  let step1 : List DialogNode × List String :=
    conversationPath.foldl
      (fun (acc : List DialogNode × List String) pathNode =>
        let acc :=
          pathNode.childNodeIds.foldl
            (fun (acc : List DialogNode × List String) childId =>
              match getNode nodes childId with
              | some childNode =>
                  if isSpecialNode childNode && childId ∉ acc.2 then
                    let acc := (acc.1 ++ [childNode], acc.2 ++ [childId])
                    childNode.childNodeIds.foldl
                      (fun (acc : List DialogNode × List String) specialChildId =>
                        match getNode nodes specialChildId with
                        | some specialChild =>
                            if isSpecialNode specialChild && specialChildId ∉ acc.2 then
                              (acc.1 ++ [specialChild], acc.2 ++ [specialChildId])
                            else acc
                        | none => acc)
                      acc
                  else acc
              | none => acc)
            acc
        pathNode.parentNodeIds.foldl
          (fun (acc : List DialogNode × List String) parentId =>
            match getNode nodes parentId with
            | some parentNode =>
                if isSpecialNode parentNode && parentId ∉ acc.2 then
                  (acc.1 ++ [parentNode], acc.2 ++ [parentId])
                else acc
            | none => acc)
          acc)
      step0
  step1.1

/-- The `orderedResult` construction of `getAllReachableNodes` (source lines
169–192), which is what the function actually returns: the conversation path,
then each path node's special children that are not path nodes and not already
present. -/
def reachableOrderedResult (nodes : List (String × DialogNode))
    (conversationPath : List DialogNode) : List DialogNode :=
  let pathNodeIds := conversationPath.map (·.id)
  conversationPath.foldl
    (fun orderedResult pathNode =>
      pathNode.childNodeIds.foldl
        (fun (orderedResult : List DialogNode) childId =>
          match getNode nodes childId with
          | some childNode =>
              if isSpecialNode childNode && childId ∉ pathNodeIds then
                if orderedResult.any (fun n => n.id == childId) then orderedResult
                else orderedResult ++ [childNode]
              else orderedResult
          | none => orderedResult)
        orderedResult)
    conversationPath

/-- Source `getAllReachableNodes`: note that the source's internal
`result`/`included` accumulation (`reachableInternalResult`) is dead — the
function returns `orderedResult`, which re-collects only the special direct
children of path nodes. -/
def getAllReachableNodes (nodes : List (String × DialogNode))
    (rootNodeId : Option String) (targetNodeId : String) : List DialogNode :=
  if strOptFalsy rootNodeId then []
  else
    match rootNodeId with
    | none => []
    | some r =>
        match getNode nodes r, getNode nodes targetNodeId with
        | some _, some _ =>
            let conversationPath := getConversationHistory nodes rootNodeId targetNodeId
            reachableOrderedResult nodes conversationPath
        | _, _ => []

/-! ### `calculateVariables` (`src/utils/nodeTree.ts`, lines 307–344) -/

/-- Source `variables[name]` lookup. -/
def varGet (vars : List (String × Value)) (k : String) : Option Value :=
  (vars.find? (fun p => p.1 == k)).map (·.2)

/-- Source `variables[name] = v` assignment. -/
def varSet (vars : List (String × Value)) (k : String) (v : Value) :
    List (String × Value) :=
  if vars.any (fun p => p.1 == k) then
    vars.map (fun p => if p.1 == k then (k, v) else p)
  else
    vars ++ [(k, v)]

/-- JS `Number(s)` restricted to the integer literals the tool uses: trimmed
empty string is `0`, an integer literal is its value, anything else is `NaN`
(`none`). -/
def jsStrToNum (s : String) : Option Int :=
  let t := jsTrim s
  if t.data.isEmpty then some 0 else intParse t.data

/-- Source `x || 0` on a possibly missing value. -/
def jsOrZero : Option Value → Value
  | none => .num 0
  | some v => if v.isFalsy then .num 0 else v

/-- JS unary minus (numeric coercion). -/
def jsNeg : Value → Value
  | .num n => .num (-n)
  | .nan => .nan
  | .str s =>
      match jsStrToNum s with
      | some k => .num (-k)
      | none => .nan

/-- JS `a + b` for two number-typed values. -/
def jsAddNum : Value → Value → Value
  | .num a, .num b => .num (a + b)
  | _, _ => .nan

/-- JS `a - b` for two number-typed values. -/
def jsSubNum : Value → Value → Value
  | .num a, .num b => .num (a - b)
  | _, _ => .nan

/-- The loop body of `calculateVariables`, processing one reachable node. -/
def applyVarNode (vars : List (String × Value)) (node : DialogNode) :
    List (String × Value) :=
  if node.type == some NType.setVariable && !strOptFalsy node.variableName then
    match node.variableName with
    | some name =>
        match node.variableValue with
        | some v => varSet vars name v
        | none => vars
    | none => vars
  else if node.type == some NType.changeVariable && !strOptFalsy node.variableName then
    match node.variableName with
    | some name =>
        let currentValue := varGet vars name
        let changeValue := jsOrZero node.variableValue
        if (match currentValue with
            | some cv => cv.isNumberType
            | none => false) && changeValue.isNumberType then
          match currentValue with
          | some cv =>
              if node.variableOperation == some VOp.subtract then
                varSet vars name (jsSubNum cv changeValue)
              else
                varSet vars name (jsAddNum cv changeValue)
          | none => vars
        else if currentValue == none then
          if node.variableOperation == some VOp.subtract then
            varSet vars name (jsNeg changeValue)
          else
            varSet vars name changeValue
        else vars
    | none => vars
  else vars

/-- Source `calculateVariables`: fold the reachable set in order over the variable
record. -/
def calculateVariables (nodes : List (String × DialogNode))
    (rootNodeId : Option String) (currentNodeId : String) : List (String × Value) :=
  (getAllReachableNodes nodes rootNodeId currentNodeId).foldl applyVarNode []

/-! ### ScriptCompiler (`src/utils/renpyExport.ts`) -/

/-- Scene record; `exportToRenPy` receives the scene table but never reads it. -/
structure Scene where
  id : String
  description : String := ""
deriving DecidableEq, Repr

/-- Insertion-ordered JS `Set.add`. -/
def saddStr (s : List String) (x : String) : List String :=
  if x ∈ s then s else s ++ [x]

/-- Lookup in a JS `Map`/`Record` keyed by strings. -/
def assocGet {α : Type} (l : List (String × α)) (k : String) : Option α :=
  (l.find? (fun p => p.1 == k)).map (·.2)

/-- Character class of the regex `[a-z0-9_]`. -/
def sanitizeKeepChar (c : Char) : Bool :=
  (97 ≤ c.toNat && c.toNat ≤ 122) || (48 ≤ c.toNat && c.toNat ≤ 57) || c == '_'

/-- Character class of the case-insensitive regex `[a-z0-9_]/i`. -/
def labelKeepChar (c : Char) : Bool :=
  (97 ≤ c.toNat && c.toNat ≤ 122) || (65 ≤ c.toNat && c.toNat ≤ 90) ||
    (48 ≤ c.toNat && c.toNat ≤ 57) || c == '_'

/-- Regex pass `/_+/g → '_'`: collapse each run of underscores to one. -/
def collapseUnderscores : List Char → List Char
  | [] => []
  | c :: rest =>
      match collapseUnderscores rest with
      | [] => [c]
      | d :: tail =>
          if c == '_' && d == '_' then d :: tail else c :: d :: tail

/-- Half of the regex pass `/^_|_$/g → ''`: drop one leading underscore. -/
def dropLeadingUnderscore : List Char → List Char
  | '_' :: rest => rest
  | l => l

/-- Source `sanitizeVariableName`: lowercase, replace characters outside
`[a-z0-9_]` by `_`, guard a leading digit, collapse underscore runs, strip one
leading/trailing underscore, and fall back to `character` when empty. -/
def sanitizeVariableName (name : String) : String :=
  let s1 := lowerStr name
  let s2 := s1.data.map (fun c => if sanitizeKeepChar c then c else '_')
  let s3 :=
    match s2 with
    | c :: _ => if 48 ≤ c.toNat && c.toNat ≤ 57 then '_' :: s2 else s2
    | [] => s2
  let s4 := collapseUnderscores s3
  let s5 := (dropLeadingUnderscore ((dropLeadingUnderscore s4.reverse).reverse))
  if s5.isEmpty then "character" else String.mk s5

/-- Source `escapeText`: escape double quotes, replace newlines by spaces. -/
def escapeText (text : String) : String :=
  String.mk ((text.data.map (fun c =>
    if c == '"' then ['\\', '"'] else if c == '\n' then [' '] else [c])).flatten)

/-- Source `generateLabelName`: `node_` prefix, sanitized lowercased id, and an
index suffix when positive. -/
def generateLabelName (nodeId : String) (index : Nat) : String :=
  let baseName :=
    "node_" ++ lowerStr (String.mk (nodeId.data.map (fun c => if labelKeepChar c then c else '_')))
  if index > 0 then baseName ++ "_" ++ toString index else baseName

/-- Source `collectVariables`: recursively walk `childNodeIds` from a node and
collect sanitized variable names of `setVariable` nodes and of the
`conditionVariable` field of `ifStatement` and `switchCase` nodes.  The
accumulator is `(visited, usedVariables)`.  The visited set bounds the
recursion depth by the map size, so the wrapper's budget is always enough. -/
def collectVariables (nodes : List (String × DialogNode)) :
    Nat → String → List String × List String → List String × List String
  | 0, _, acc => acc
  | fuel + 1, nodeId, (visited, used) =>
      if nodeId ∈ visited then (visited, used)
      else
        let visited := visited ++ [nodeId]
        match getNode nodes nodeId with
        | none => (visited, used)
        | some node =>
            let nodeType := node.nodeType
            let used :=
              if nodeType == NType.setVariable && !strOptFalsy node.variableName then
                saddStr used (sanitizeVariableName (node.variableName.getD ""))
              else used
            let used :=
              if nodeType == NType.ifStatement && !strOptFalsy node.conditionVariable then
                saddStr used (sanitizeVariableName (node.conditionVariable.getD ""))
              else used
            let used :=
              if nodeType == NType.switchCase && !strOptFalsy node.conditionVariable then
                saddStr used (sanitizeVariableName (node.conditionVariable.getD ""))
              else used
            node.childNodeIds.foldl
              (fun acc c => collectVariables nodes fuel c acc) (visited, used)

/-- The character ids used by NPC nodes of the dialog, in value order. -/
def usedCharacterIds (d : Dialog) : List String :=
  d.nodes.foldl
    (fun acc p =>
      if !strOptFalsy p.2.characterId && p.2.speaker == some Speaker.NPC then
        saddStr acc (p.2.characterId.getD "")
      else acc)
    []

/-- The `define` lines and the `characterId → variableName` map. -/
def characterDefs (charIds : List String) (characters : List (String × Character)) :
    List String × List (String × String) :=
  charIds.foldl
    (fun (acc : List String × List (String × String)) charId =>
      match assocGet characters charId with
      | some character =>
          let varName := sanitizeVariableName character.name
          (acc.1 ++ ["define " ++ varName ++ " = Character(\"" ++ escapeText character.name ++ "\")"],
           acc.2 ++ [(charId, varName)])
      | none => acc)
    ([], [])

/-- Source `nodesNeedingLabels`: dialog nodes (NPC or player speaker) with more
than one parent, in value order. -/
def nodesNeedingLabels (d : Dialog) : List String :=
  d.nodes.foldl
    (fun acc p =>
      let node := p.2
      let isDialogNode := node.nodeType == NType.dialog &&
        (node.speaker == some Speaker.NPC || node.speaker == some Speaker.player)
      if node.parentNodeIds.length > 1 && isDialogNode then saddStr acc node.id
      else acc)
    []

/-- Source `'    '.repeat(indent)`. -/
def indentStr (indent : Nat) : String :=
  String.join (List.replicate indent "    ")

/-- The shared emission bookkeeping threaded through the recursive emitter:
`emittedNodes` and `referencedLabels` (the `definedLabels` set is passed to the
source function but never read inside it). -/
structure EmitSt where
  emitted : List String
  referenced : List String
deriving DecidableEq, Repr

/-- The read-only context of one `exportToRenPy` invocation. -/
structure EmitCtx where
  nodes : List (String × DialogNode)
  characterMap : List (String × String)
  needLabels : List String
  labelMap : List (String × String)
deriving Repr

/-- Result triple of the emitter: lines, grown visited set, bookkeeping. -/
abbrev EmitRes := List String × List String × EmitSt

/-- JS template interpolation `${v}` of a `string | number` value. -/
def Value.toJs : Value → String
  | .num n => toString n
  | .str s => s
  | .nan => "NaN"

/-- Value rendering of the `setVariable` emission: numbers verbatim, everything
else quoted through `String(v || '')`. -/
def renderSetVariableValue (v : Option Value) : String :=
  match v with
  | some (Value.num n) => toString n
  | some Value.nan => "NaN"
  | some (Value.str s) => "\"" ++ escapeText (if s.isEmpty then "" else s) ++ "\""
  | none => "\"" ++ escapeText "" ++ "\""

/-- Operator rendering of the if-statement emission (unknown operators fall
back to `<=` in the source chain). -/
def renderCmpOp : CmpOp → String
  | .eq => "=="
  | .ne => "!="
  | .gt => ">"
  | .lt => "<"
  | .ge => ">="
  | .le => "<="

/-- Condition-value rendering of the if-statement emission: the strings
`true`/`false` (case-insensitive, trimmed) become `True`/`False`, numbers stay
verbatim, and other strings are quoted. -/
def renderConditionValue (v : Value) : String :=
  let valueStr := jsTrim v.toJs
  let valueLower := lowerStr valueStr
  if valueLower == "true" then "True"
  else if valueLower == "false" then "False"
  else
    match v with
    | .num n => toString n
    | .nan => "NaN"
    | .str _ => "\"" ++ escapeText valueStr ++ "\""

/-- Case-value rendering of the switch-case emission. -/
def renderCaseValue : Value → String
  | .num n => toString n
  | .nan => "NaN"
  | .str s => "\"" ++ escapeText s ++ "\""

/-- Source `[fadein N] [fadeout N]` suffix of a `play music` line. -/
def musicFadeStr (n : DialogNode) : String :=
  let ps : List String :=
    (match n.fadeIn with
     | some t => if t > 0 then ["fadein " ++ toString t] else []
     | none => []) ++
    (match n.fadeOut with
     | some t => if t > 0 then ["fadeout " ++ toString t] else []
     | none => [])
  if ps.length > 0 then " " ++ String.intercalate " " ps else ""

/-- Regex pass `/\s+/g → '_'` used on emotion names before `show` lines. -/
def wsCollapse (s : String) : String :=
  String.mk
    ((s.data.foldl
        (fun (acc : List Char × Bool) c =>
          if c.isWhitespace then
            if acc.2 then acc else (acc.1 ++ ['_'], true)
          else (acc.1 ++ [c], false))
        ([], false)).1)

/-- The grand-child classifier used by the menu and mixed-children blocks:
`type !== 'dialog' || (speaker !== 'NPC' && speaker !== 'player')` marks a
special child; a missing node is skipped by both lists. -/
def isSpecialChildOf (ctx : EmitCtx) (cid : String) : Bool :=
  match getNode ctx.nodes cid with
  | some g =>
      g.nodeType != NType.dialog ||
        (g.speaker != some Speaker.NPC && g.speaker != some Speaker.player)
  | none => false

/-- Membership test for the dialog-children lists of the same blocks. -/
def isDialogChildOf (ctx : EmitCtx) (cid : String) : Bool :=
  match getNode ctx.nodes cid with
  | some g =>
      !(g.nodeType != NType.dialog ||
        (g.speaker != some Speaker.NPC && g.speaker != some Speaker.player))
  | none => false

/-- One `scene <tag>` line for a background name. -/
def sceneLine (ind bgName : String) : String :=
  let bgTag := if "bg ".data.isPrefixOf bgName.data then bgName else "bg " ++ bgName
  ind ++ "scene " ++ bgTag ++ " at Transform(xsize=config.screen_width, ysize=config.screen_height)"

/-- The immediate-effect emission of a special grand-child inside a menu choice
(source lines 796–834); indentation is `indent + 8` spaces relative to the
menu's base. -/
def emitSpecialMenu (ctx : EmitCtx) (ind : String) (st : EmitSt) (gid : String) :
    List String × EmitSt :=
  match getNode ctx.nodes gid with
  | none => ([], st)
  | some sg =>
      let pad := ind ++ "        "
      let t := sg.nodeType
      if t == NType.setVariable && !strOptFalsy sg.variableName then
        ([pad ++ "$ " ++ sg.variableName.getD "" ++ " = " ++ renderSetVariableValue sg.variableValue,
          ""], st)
      else if t == NType.changeVariable && !strOptFalsy sg.variableName &&
          sg.variableValue != none then
        let op := if sg.variableOperation == some VOp.subtract then "-" else "+"
        ([pad ++ "$ " ++ sg.variableName.getD "" ++ " " ++ op ++ "= " ++
            (sg.variableValue.getD (Value.num 0)).toJs, ""], st)
      else if t == NType.setBackground && !strOptFalsy sg.backgroundImage then
        if !(st.emitted.contains gid) then
          ([sceneLine pad (jsTrim (sg.backgroundImage.getD "")), ""],
           { st with emitted := saddStr st.emitted gid })
        else ([], st)
      else if t == NType.soundPlay && !strOptFalsy sg.soundFile then
        ([pad ++ "play sound \"" ++ jsTrim (sg.soundFile.getD "") ++ "\"", ""], st)
      else if t == NType.musicSet && !strOptFalsy sg.musicFile then
        ([pad ++ "play music \"" ++ jsTrim (sg.musicFile.getD "") ++ "\"" ++ musicFadeStr sg, ""], st)
      else ([], st)

/-- The immediate-effect emission of a special child of an NPC node with mixed
children (source lines 898–946); unlike the menu variant it also renders
scene-description comments and indents at the caller's level. -/
def emitSpecialMixed (ctx : EmitCtx) (ind : String) (st : EmitSt) (sid : String) :
    List String × EmitSt :=
  match getNode ctx.nodes sid with
  | none => ([], st)
  | some sn =>
      let t := sn.nodeType
      if t == NType.setVariable && !strOptFalsy sn.variableName then
        ([ind ++ "$ " ++ sn.variableName.getD "" ++ " = " ++ renderSetVariableValue sn.variableValue,
          ""], st)
      else if t == NType.changeVariable && !strOptFalsy sn.variableName &&
          sn.variableValue != none then
        let op := if sn.variableOperation == some VOp.subtract then "-" else "+"
        ([ind ++ "$ " ++ sn.variableName.getD "" ++ " " ++ op ++ "= " ++
            (sn.variableValue.getD (Value.num 0)).toJs, ""], st)
      else if t == NType.setBackground && !strOptFalsy sn.backgroundImage then
        if !(st.emitted.contains sid) then
          ([sceneLine ind (jsTrim (sn.backgroundImage.getD "")), ""],
           { st with emitted := saddStr st.emitted sid })
        else ([], st)
      else if t == NType.soundPlay && !strOptFalsy sn.soundFile then
        ([ind ++ "play sound \"" ++ jsTrim (sn.soundFile.getD "") ++ "\"", ""], st)
      else if t == NType.musicSet && !strOptFalsy sn.musicFile then
        ([ind ++ "play music \"" ++ jsTrim (sn.musicFile.getD "") ++ "\"" ++ musicFadeStr sn, ""], st)
      else if t == NType.sceneDescription && !sn.text.data.isEmpty then
        ([ind ++ "# Scene Description: " ++ escapeText sn.text, ""], st)
      else ([], st)

/-- The NPC line block (source lines 298–376): pending background changes from
this node's own `setBackground` children (with dissolve) and from the previous
NPC turn's `setBackground` children (via parent's parents), the avatar/emotion
`show` line, and the spoken line itself. -/
def npcLineBlock (ctx : EmitCtx) (ind : String) (node : DialogNode) (st : EmitSt) :
    List String × EmitSt :=
  let acc1 : List String × List String × EmitSt :=
    node.childNodeIds.foldl
      (fun acc childId =>
        match getNode ctx.nodes childId with
        | some childNode =>
            if childNode.type == some NType.setBackground &&
                !strOptFalsy childNode.backgroundImage then
              let bgKey := jsTrim (childNode.backgroundImage.getD "")
              if !(acc.2.1.contains bgKey) && !(acc.2.2.emitted.contains childId) then
                (acc.1 ++ [sceneLine ind bgKey, ind ++ "with dissolve", ""],
                 acc.2.1 ++ [bgKey],
                 { acc.2.2 with emitted := saddStr acc.2.2.emitted childId })
              else acc
            else acc
        | none => acc)
      ([], [], st)
  let acc2 : List String × List String × EmitSt :=
    node.parentNodeIds.foldl
      (fun acc parentId =>
        match getNode ctx.nodes parentId with
        | none => acc
        | some parent =>
            parent.parentNodeIds.foldl
              (fun acc grandParentId =>
                match getNode ctx.nodes grandParentId with
                | none => acc
                | some grandParent =>
                    if grandParent.speaker != some Speaker.NPC then acc
                    else
                      grandParent.childNodeIds.foldl
                        (fun acc childId =>
                          match getNode ctx.nodes childId with
                          | some childNode =>
                              if childNode.type == some NType.setBackground &&
                                  !strOptFalsy childNode.backgroundImage then
                                let bgKey := jsTrim (childNode.backgroundImage.getD "")
                                if !(acc.2.1.contains bgKey) &&
                                    !(acc.2.2.emitted.contains childId) then
                                  (acc.1 ++ [sceneLine ind bgKey, ""],
                                   acc.2.1 ++ [bgKey],
                                   { acc.2.2 with
                                       emitted := saddStr acc.2.2.emitted childId })
                                else acc
                              else acc
                          | none => acc)
                        acc)
              acc)
      acc1
  let avatarLines :=
    if node.showAvatar == some true && !strOptFalsy node.characterId &&
        !strOptFalsy node.emotion then
      match assocGet ctx.characterMap (node.characterId.getD "") with
      | some charVar =>
          let emotion := lowerStr (wsCollapse (node.emotion.getD ""))
          [ind ++ "show " ++ charVar ++ " " ++ emotion ++ " at half_size",
           ind ++ "with dissolve", ""]
      | none => []
    else []
  let textLine :=
    if !strOptFalsy node.characterId &&
        (assocGet ctx.characterMap (node.characterId.getD "")).isSome then
      match assocGet ctx.characterMap (node.characterId.getD "") with
      | some charVar => [ind ++ charVar ++ " \"" ++ escapeText node.text ++ "\""]
      | none => [ind ++ "\"" ++ escapeText node.text ++ "\""]
    else [ind ++ "\"" ++ escapeText node.text ++ "\""]
  (acc2.1 ++ avatarLines ++ textLine ++ [""], acc2.2.2)

/-- Source `convertNodeToRenPy`: the recursive emitter.  `fuel` bounds the
recursion depth (each nested call consumes one unit); `none` means the source
recursion exceeds that depth.  The triple result is (lines, visited',
bookkeeping'); call sites that pass a `new Set(visited)` copy thread the copy
internally and restore the caller's `visited`. -/
def convertNodeToRenPy (ctx : EmitCtx) :
    Nat → String → List String → EmitSt → Nat → Bool → Option EmitRes
  | 0, _, _, _, _, _ => none
  | fuel + 1, nodeId, visited, st, indent, isLabelDefinition =>
      match getNode ctx.nodes nodeId with
      | none => some ([], visited, st)
      | some node =>
          if ctx.needLabels.contains nodeId && !isLabelDefinition then
            -- shared node reached outside its definition: emit a jump only
            let labelName := (assocGet ctx.labelMap nodeId).getD "undefined"
            let ind := indentStr indent
            some ([ind ++ "jump " ++ labelName, ""], visited,
                  { st with referenced := saddStr st.referenced nodeId })
          else
            let nodeType := node.nodeType
            let isSpecial := nodeType != NType.dialog
            if st.emitted.contains nodeId && !isLabelDefinition &&
                !(ctx.needLabels.contains nodeId) && !isSpecial then
              some ([], visited, st)
            else if visited.contains nodeId && node.speaker == some Speaker.NPC &&
                !isLabelDefinition && !(ctx.needLabels.contains nodeId) && !isSpecial then
              some ([], visited, st)
            else
              let visited := saddStr visited nodeId
              let ind := indentStr indent
              let st :=
                if !isLabelDefinition && nodeType == NType.dialog then
                  { st with emitted := saddStr st.emitted nodeId }
                else st
              -- the player-node handler of the source (lines 1112–1247): emit the
              -- line as direct dialog when the node is its parent's only dialog
              -- child, otherwise as a comment; then special children on a copied
              -- visited set, then dialog children
              let playerTail : Option EmitRes :=
                let parentHasSingleDialogChild :=
                  node.parentNodeIds.length > 0 &&
                    node.parentNodeIds.any (fun parentId =>
                      match getNode ctx.nodes parentId with
                      | none => false
                      | some parent =>
                          let dialogChildren := parent.childNodeIds.filter (fun cid =>
                            match getNode ctx.nodes cid with
                            | none => false
                            | some child =>
                                child.nodeType == NType.dialog ||
                                  (child.type == none &&
                                    (child.speaker == some Speaker.NPC ||
                                      child.speaker == some Speaker.player)))
                          dialogChildren.length == 1 && dialogChildren.head? == some nodeId)
                let textLines :=
                  if !(jsTrim node.text).data.isEmpty then
                    if parentHasSingleDialogChild then
                      [ind ++ "\"" ++ escapeText node.text ++ "\"", ""]
                    else [ind ++ "# Player choice: " ++ escapeText node.text]
                  else []
                if node.childNodeIds.length > 0 then
                  let specialChildren := node.childNodeIds.filter (isSpecialChildOf ctx)
                  let dialogChildren := node.childNodeIds.filter (isDialogChildOf ctx)
                  let spRes : Option EmitRes :=
                    specialChildren.foldl
                      (fun acc scid =>
                        acc >>= fun (r : EmitRes) =>
                          (convertNodeToRenPy ctx fuel scid r.2.1 r.2.2 indent false).map
                            (fun q => (r.1 ++ q.1, q.2.1, q.2.2)))
                      (some ([], visited, st))
                  spRes >>= fun (sp : EmitRes) =>
                    let st := sp.2.2
                    if dialogChildren.length > 0 then
                      let dialogChildNodes := dialogChildren.filterMap (getNode ctx.nodes)
                      let allPlayerChildren :=
                        !dialogChildNodes.isEmpty &&
                          dialogChildNodes.all (fun n => n.speaker == some Speaker.player)
                      if allPlayerChildren then
                        (dialogChildren.foldl
                            (fun acc cid =>
                              acc >>= fun (r : EmitRes) =>
                                (convertNodeToRenPy ctx fuel cid r.2.1 r.2.2 indent false).map
                                  (fun q => (r.1 ++ q.1, q.2.1, q.2.2)))
                            (some ([], visited, st))).map
                          (fun r => (textLines ++ sp.1 ++ r.1, visited, r.2.2))
                      else if dialogChildren.length == 1 then
                        (convertNodeToRenPy ctx fuel ((dialogChildren.head?).getD "") visited st
                            indent false).map
                          (fun r => (textLines ++ sp.1 ++ r.1, r.2.1, r.2.2))
                      else
                        (dialogChildren.foldl
                            (fun acc cid =>
                              acc >>= fun (r : EmitRes) =>
                                (convertNodeToRenPy ctx fuel cid r.2.1 r.2.2 indent false).map
                                  (fun q => (r.1 ++ q.1, q.2.1, q.2.2)))
                            (some ([], visited, st))).map
                          (fun r => (textLines ++ sp.1 ++ r.1, visited, r.2.2))
                    else some (textLines ++ sp.1, visited, st)
                else some (textLines ++ [""], visited, st)
              -- the three duplicated single-player inline blocks of the source
              let inlineSinglePlayer : String → EmitSt → Option (List String × EmitSt) :=
                fun playerNodeId st =>
                  match getNode ctx.nodes playerNodeId with
                  | some playerNode =>
                      if playerNode.speaker == some Speaker.player then
                        let l0 := [ind ++ "\"" ++ escapeText playerNode.text ++ "\"", ""]
                        if playerNode.childNodeIds.length > 0 then
                          (playerNode.childNodeIds.foldl
                              (fun acc gid =>
                                acc >>= fun (r : List String × List String × EmitSt) =>
                                  if ctx.needLabels.contains gid then
                                    let labelName := (assocGet ctx.labelMap gid).getD "undefined"
                                    some (r.1 ++ [ind ++ "jump " ++ labelName, ""], r.2.1,
                                          { r.2.2 with
                                              referenced := saddStr r.2.2.referenced gid })
                                  else
                                    (convertNodeToRenPy ctx fuel gid r.2.1 r.2.2 indent false).map
                                      (fun q => (r.1 ++ q.1, q.2.1, q.2.2)))
                              (some (l0, visited, st))).map (fun r => (r.1, r.2.2))
                        else some (l0, st)
                      else some ([], st)
                  | none => some ([], st)
              -- dispatch on node type, mirroring the source if/else chain
              if nodeType == NType.dialog && node.speaker == some Speaker.NPC then
                let pre := npcLineBlock ctx ind node st
                let lines0 := pre.1
                let st := pre.2
                match node.childNodeIds with
                | [] => some (lines0, visited, st)
                | [childId] =>
                    (convertNodeToRenPy ctx fuel childId visited st indent false).map
                      (fun r => (lines0 ++ r.1, r.2.1, r.2.2))
                | _ =>
                    let childNodes := node.childNodeIds.filterMap (getNode ctx.nodes)
                    let allPlayerNodes :=
                      childNodes.all (fun n => n.speaker == some Speaker.player)
                    if allPlayerNodes then
                      if node.childNodeIds.length == 1 then
                        -- mirrored dead branch of the source (length is ≥ 2 here)
                        (inlineSinglePlayer ((node.childNodeIds.head?).getD "") st).map
                          (fun r => (lines0 ++ r.1, visited, r.2))
                      else
                        -- menu over the player children
                        (node.childNodeIds.foldl
                            (fun acc childId =>
                              acc >>= fun (r : List String × EmitSt) =>
                                match getNode ctx.nodes childId with
                                | some childNode =>
                                    if childNode.speaker == some Speaker.player then
                                      let choiceLine :=
                                        ind ++ "    \"" ++ escapeText childNode.text ++ "\":"
                                      if childNode.childNodeIds.length > 0 then
                                        let specialGrandChildren :=
                                          childNode.childNodeIds.filter (isSpecialChildOf ctx)
                                        let dialogGrandChildren :=
                                          childNode.childNodeIds.filter (isDialogChildOf ctx)
                                        let sp :=
                                          specialGrandChildren.foldl
                                            (fun (a : List String × EmitSt) gid =>
                                              let e := emitSpecialMenu ctx ind a.2 gid
                                              (a.1 ++ e.1, e.2))
                                            ([], r.2)
                                        (dialogGrandChildren.foldl
                                            (fun acc2 gid =>
                                              acc2 >>= fun (q : List String × List String × EmitSt) =>
                                                if ctx.needLabels.contains gid then
                                                  let labelName :=
                                                    (assocGet ctx.labelMap gid).getD "undefined"
                                                  some (q.1 ++ [ind ++ "        jump " ++ labelName, ""],
                                                        q.2.1,
                                                        { q.2.2 with
                                                            referenced :=
                                                              saddStr q.2.2.referenced gid })
                                                else
                                                  (convertNodeToRenPy ctx fuel gid q.2.1 q.2.2
                                                      (indent + 2) false).map
                                                    (fun w =>
                                                      (q.1 ++
                                                        (if w.1.isEmpty then
                                                          [ind ++ "        pass", ""]
                                                        else w.1), w.2.1, w.2.2)))
                                            (some (sp.1, visited, sp.2))).map
                                          (fun q =>
                                            let tailPass :=
                                              if specialGrandChildren.isEmpty &&
                                                  dialogGrandChildren.isEmpty then
                                                [ind ++ "        pass"]
                                              else []
                                            (r.1 ++ [choiceLine] ++ q.1 ++ tailPass ++ [""],
                                             q.2.2))
                                      else
                                        some (r.1 ++ [choiceLine, ind ++ "        pass", ""], r.2)
                                    else some r
                                | none => some r)
                            (some ([ind ++ "menu:", ""], st))).map
                          (fun r => (lines0 ++ r.1, visited, r.2))
                    else
                      -- mixed children: special effects first, then the dialog flow
                      let specialNodes := node.childNodeIds.filter (isSpecialChildOf ctx)
                      let dialogNodes := node.childNodeIds.filter (isDialogChildOf ctx)
                      let sp :=
                        specialNodes.foldl
                          (fun (a : List String × EmitSt) sid =>
                            let e := emitSpecialMixed ctx ind a.2 sid
                            (a.1 ++ e.1, e.2))
                          ([], st)
                      let st := sp.2
                      match dialogNodes with
                      | [] => some (lines0 ++ sp.1, visited, st)
                      | [singleId] =>
                          (match getNode ctx.nodes singleId with
                           | some single =>
                               if single.speaker == some Speaker.player then
                                 (inlineSinglePlayer singleId st).map
                                   (fun r => (lines0 ++ sp.1 ++ r.1, visited, r.2))
                               else
                                 (convertNodeToRenPy ctx fuel singleId visited st indent false).map
                                   (fun r => (lines0 ++ sp.1 ++ r.1, r.2.1, r.2.2))
                           | none =>
                               (convertNodeToRenPy ctx fuel singleId visited st indent false).map
                                 (fun r => (lines0 ++ sp.1 ++ r.1, r.2.1, r.2.2)))
                      | _ =>
                          let dialogChildNodes := dialogNodes.filterMap (getNode ctx.nodes)
                          let allPlayerChoices :=
                            dialogChildNodes.all (fun n => n.speaker == some Speaker.player)
                          if allPlayerChoices then
                            if dialogNodes.length == 1 then
                              -- mirrored dead branch of the source
                              (inlineSinglePlayer ((dialogNodes.head?).getD "") st).map
                                (fun r => (lines0 ++ sp.1 ++ r.1, visited, r.2))
                            else
                              -- menu over the player children (no special/dialog split here)
                              (dialogNodes.foldl
                                  (fun acc childId =>
                                    acc >>= fun (r : List String × EmitSt) =>
                                      match getNode ctx.nodes childId with
                                      | some childNode =>
                                          if childNode.speaker == some Speaker.player then
                                            let choiceLine :=
                                              ind ++ "    \"" ++ escapeText childNode.text ++ "\":"
                                            if childNode.childNodeIds.length > 0 then
                                              (childNode.childNodeIds.foldl
                                                  (fun acc2 gid =>
                                                    acc2 >>= fun (q : List String × List String × EmitSt) =>
                                                      if ctx.needLabels.contains gid then
                                                        let labelName :=
                                                          (assocGet ctx.labelMap gid).getD "undefined"
                                                        some (q.1 ++
                                                              [ind ++ "        jump " ++ labelName, ""],
                                                              q.2.1,
                                                              { q.2.2 with
                                                                  referenced :=
                                                                    saddStr q.2.2.referenced gid })
                                                      else
                                                        (convertNodeToRenPy ctx fuel gid q.2.1 q.2.2
                                                            (indent + 2) false).map
                                                          (fun w =>
                                                            (q.1 ++
                                                              (if w.1.isEmpty then
                                                                [ind ++ "        pass", ""]
                                                              else w.1), w.2.1, w.2.2)))
                                                  (some ([], visited, r.2))).map
                                                (fun q =>
                                                  (r.1 ++ [choiceLine] ++ q.1 ++ [""], q.2.2))
                                            else
                                              some (r.1 ++ [choiceLine, ind ++ "        pass", ""],
                                                    r.2)
                                          else some r
                                      | none => some r)
                                  (some ([ind ++ "menu:", ""], st))).map
                                (fun r => (lines0 ++ sp.1 ++ r.1, visited, r.2))
                          else
                            (convertNodeToRenPy ctx fuel ((dialogNodes.head?).getD "")
                                visited st indent false).map
                              (fun r =>
                                (lines0 ++ sp.1 ++
                                  [ind ++ "# Note: Multiple dialog paths available, following first path"] ++
                                  r.1, r.2.1, r.2.2))
              else if nodeType == NType.setVariable then
                let lines1 :=
                  if !strOptFalsy node.variableName then
                    [ind ++ "$ " ++ node.variableName.getD "" ++ " = " ++
                      renderSetVariableValue node.variableValue, ""]
                  else []
                -- generic special tail: follow the first child path
                match node.childNodeIds with
                | [] => some (lines1, visited, st)
                | [cid] =>
                    (convertNodeToRenPy ctx fuel cid visited st indent false).map
                      (fun r => (lines1 ++ r.1, r.2.1, r.2.2))
                | cid :: _ =>
                    (convertNodeToRenPy ctx fuel cid visited st indent false).map
                      (fun r =>
                        (lines1 ++ [ind ++ "# Note: Multiple paths available, following first path"] ++
                          r.1, r.2.1, r.2.2))
              else if nodeType == NType.changeVariable then
                let lines1 :=
                  if !strOptFalsy node.variableName && node.variableValue != none then
                    let op := if node.variableOperation == some VOp.subtract then "-" else "+"
                    [ind ++ "$ " ++ node.variableName.getD "" ++ " " ++ op ++ "= " ++
                      (node.variableValue.getD (Value.num 0)).toJs, ""]
                  else []
                match node.childNodeIds with
                | [] => some (lines1, visited, st)
                | [cid] =>
                    (convertNodeToRenPy ctx fuel cid visited st indent false).map
                      (fun r => (lines1 ++ r.1, r.2.1, r.2.2))
                | cid :: _ =>
                    (convertNodeToRenPy ctx fuel cid visited st indent false).map
                      (fun r =>
                        (lines1 ++ [ind ++ "# Note: Multiple paths available, following first path"] ++
                          r.1, r.2.1, r.2.2))
              else if nodeType == NType.setBackground then
                -- emit unless already emitted, then recurse into every child on a
                -- copied visited set, then return early
                let bg :=
                  if !(st.emitted.contains nodeId) && !strOptFalsy node.backgroundImage then
                    ([sceneLine ind (jsTrim (node.backgroundImage.getD "")), ""],
                     { st with emitted := saddStr st.emitted nodeId })
                  else ([], st)
                if node.childNodeIds.length > 0 then
                  (node.childNodeIds.foldl
                      (fun acc cid =>
                        acc >>= fun (r : List String × List String × EmitSt) =>
                          (convertNodeToRenPy ctx fuel cid r.2.1 r.2.2 indent false).map
                            (fun q => (r.1 ++ q.1, q.2.1, q.2.2)))
                      (some (bg.1, visited, bg.2))).map
                    (fun r => (r.1, visited, r.2.2))
                else some (bg.1, visited, bg.2)
              else if nodeType == NType.soundPlay then
                let lines1 :=
                  if !strOptFalsy node.soundFile then
                    [ind ++ "play sound \"" ++ jsTrim (node.soundFile.getD "") ++ "\"", ""]
                  else []
                match node.childNodeIds with
                | [] => some (lines1, visited, st)
                | [cid] =>
                    (convertNodeToRenPy ctx fuel cid visited st indent false).map
                      (fun r => (lines1 ++ r.1, r.2.1, r.2.2))
                | cid :: _ =>
                    (convertNodeToRenPy ctx fuel cid visited st indent false).map
                      (fun r =>
                        (lines1 ++ [ind ++ "# Note: Multiple paths available, following first path"] ++
                          r.1, r.2.1, r.2.2))
              else if nodeType == NType.musicSet then
                let lines1 :=
                  if !strOptFalsy node.musicFile then
                    [ind ++ "play music \"" ++ jsTrim (node.musicFile.getD "") ++ "\"" ++
                      musicFadeStr node, ""]
                  else []
                match node.childNodeIds with
                | [] => some (lines1, visited, st)
                | [cid] =>
                    (convertNodeToRenPy ctx fuel cid visited st indent false).map
                      (fun r => (lines1 ++ r.1, r.2.1, r.2.2))
                | cid :: _ =>
                    (convertNodeToRenPy ctx fuel cid visited st indent false).map
                      (fun r =>
                        (lines1 ++ [ind ++ "# Note: Multiple paths available, following first path"] ++
                          r.1, r.2.1, r.2.2))
              else if nodeType == NType.ifStatement then
                if !strOptFalsy node.conditionVariable && node.conditionOperator != none &&
                    node.conditionValue != none then
                  let varName := sanitizeVariableName (node.conditionVariable.getD "")
                  let operator := renderCmpOp (node.conditionOperator.getD CmpOp.le)
                  let value := renderConditionValue (node.conditionValue.getD (Value.num 0))
                  let l0 := [ind ++ "if " ++ varName ++ " " ++ operator ++ " " ++ value ++ ":", ""]
                  let afterTrue : Option EmitRes :=
                    match node.childNodeIds.head? with
                    | some tc =>
                        if tc.data.isEmpty then some (l0, visited, st)
                        else
                          (convertNodeToRenPy ctx fuel tc visited st (indent + 1) false).map
                            (fun r => (l0 ++ r.1, r.2.1, r.2.2))
                    | none => some (l0, visited, st)
                  afterTrue >>= fun (r : EmitRes) =>
                    match node.childNodeIds.get? 1 with
                    | some fc =>
                        if fc.data.isEmpty then some r
                        else
                          (convertNodeToRenPy ctx fuel fc r.2.1 r.2.2 (indent + 1) false).map
                            (fun q => (r.1 ++ [ind ++ "else:", ""] ++ q.1, q.2.1, q.2.2))
                    | none => some r
                else if node.speaker == some Speaker.player then
                  -- a malformed branch node falls through to the player handler
                  playerTail
                else some ([], visited, st)
              else if nodeType == NType.sceneDescription then
                let lines1 :=
                  if !node.text.data.isEmpty then
                    [ind ++ "# Scene Description: " ++ escapeText node.text, ""]
                  else []
                match node.childNodeIds with
                | [] => some (lines1, visited, st)
                | [cid] =>
                    (convertNodeToRenPy ctx fuel cid visited st indent false).map
                      (fun r => (lines1 ++ r.1, r.2.1, r.2.2))
                | cid :: _ =>
                    (convertNodeToRenPy ctx fuel cid visited st indent false).map
                      (fun r =>
                        (lines1 ++ [ind ++ "# Note: Multiple paths available, following first path"] ++
                          r.1, r.2.1, r.2.2))
              else if nodeType == NType.switchCase then
                if !strOptFalsy node.switchVariable &&
                    (match node.cases with
                     | some cs => cs.length > 0
                     | none => false) then
                  let cs := node.cases.getD []
                  let body : Option EmitRes :=
                    (cs.enum.foldl
                        (fun acc ic =>
                          acc >>= fun (r : EmitRes) =>
                            let index := ic.1
                            let caseItem := ic.2
                            let keyword := if index == 0 then "if" else "elif"
                            let headerLine :=
                              ind ++ keyword ++ " " ++ node.switchVariable.getD "" ++ " == " ++
                                renderCaseValue caseItem.value ++ ":"
                            let branch : Option EmitRes :=
                              if !strOptFalsy caseItem.nodeId then
                                (convertNodeToRenPy ctx fuel (caseItem.nodeId.getD "")
                                    r.2.1 r.2.2 (indent + 1) false).map
                                  (fun q =>
                                    ((if q.1.isEmpty then [ind ++ "    pass", ""] else q.1),
                                     q.2.1, q.2.2))
                              else
                                match node.childNodeIds.get? index with
                                | some cid =>
                                    if cid.data.isEmpty then
                                      some ([ind ++ "    pass", ""], r.2.1, r.2.2)
                                    else
                                      (convertNodeToRenPy ctx fuel cid r.2.1 r.2.2
                                          (indent + 1) false).map
                                        (fun q =>
                                          ((if q.1.isEmpty then [ind ++ "    pass", ""] else q.1),
                                           q.2.1, q.2.2))
                                | none => some ([ind ++ "    pass", ""], r.2.1, r.2.2)
                            branch.map (fun q =>
                              (r.1 ++ [headerLine, ""] ++ q.1, q.2.1, q.2.2)))
                        (some ([], visited, st)))
                  body >>= fun (r : EmitRes) =>
                    if node.childNodeIds.length > cs.length then
                      match node.childNodeIds.get? cs.length with
                      | some elseChildId =>
                          if elseChildId.data.isEmpty then
                            some (r.1 ++ [ind ++ "else:", "", ind ++ "    pass", ""], r.2.1, r.2.2)
                          else
                            (convertNodeToRenPy ctx fuel elseChildId r.2.1 r.2.2
                                (indent + 1) false).map
                              (fun q =>
                                (r.1 ++ [ind ++ "else:", ""] ++
                                  (if q.1.isEmpty then [ind ++ "    pass", ""] else q.1),
                                 q.2.1, q.2.2))
                      | none =>
                          some (r.1 ++ [ind ++ "else:", "", ind ++ "    pass", ""], r.2.1, r.2.2)
                    else some r
                else if node.speaker == some Speaker.player then
                  playerTail
                else some ([], visited, st)
              else if node.speaker == some Speaker.player then
                playerTail
              else some ([], visited, st)

/-- The label-definition pass at the end of `exportToRenPy`: iterate
`referencedLabels` in insertion order (labels referenced while emitting a label
body are appended and processed too), emitting each label's block once with a
fresh visited set and a fresh emitted set.  One unit of `fuel` is consumed per
worklist step. -/
def processLabels (ctx : EmitCtx) :
    Nat → Nat → List String → EmitSt → Option (List String × List String × EmitSt)
  | 0, i, defined, st =>
      if i < st.referenced.length then none else some ([], defined, st)
  | fuel + 1, i, defined, st =>
      if i < st.referenced.length then
        let nodeId := (st.referenced.get? i).getD ""
        if !(defined.contains nodeId) && (getNode ctx.nodes nodeId).isSome then
          let labelName := (assocGet ctx.labelMap nodeId).getD "undefined"
          match convertNodeToRenPy ctx fuel nodeId []
              { emitted := [], referenced := st.referenced } 1 true with
          | none => none
          | some (content, _, st2) =>
              (processLabels ctx fuel (i + 1) (defined ++ [nodeId])
                  { st with referenced := st2.referenced }).map
                (fun r =>
                  (["", "label " ++ labelName ++ ":", ""] ++ content ++ r.1, r.2.1, r.2.2))
        else processLabels ctx fuel (i + 1) defined st
      else some ([], defined, st)

/-- Source `exportToRenPy`, producing the `lines` array (the source joins it
with newlines at the end); `none` when the recursive emitter exceeds the depth
budget `fuel`.  The `scenes` argument is accepted but never read, as in the
source. -/
def exportToRenPy (fuel : Nat) (dialog : Dialog)
    (characters : List (String × Character)) (scenes : List (String × Scene)) :
    Option (List String) :=
  let _ := scenes
  let header := ["# The script of the game goes in this file.", "", ""]
  let charIds := usedCharacterIds dialog
  let charSection : List String × List (String × String) :=
    if charIds.length > 0 then
      let defs := characterDefs charIds characters
      (["# Declare characters used by this game. The color argument colorizes the",
        "# name of the character.", ""] ++ defs.1 ++ [""], defs.2)
    else ([], [])
  let usedVars :=
    if !strOptFalsy dialog.rootNodeId then
      (collectVariables dialog.nodes (dialog.nodes.length + 2)
        (dialog.rootNodeId.getD "") ([], [])).2
    else []
  let needLabels := nodesNeedingLabels dialog
  let labelMap := needLabels.enum.map (fun p => (p.2, generateLabelName p.2 p.1))
  let ctx : EmitCtx := ⟨dialog.nodes, charSection.2, needLabels, labelMap⟩
  let transformBlock :=
    ["transform half_size:", "    zoom 1.3", "    xalign 0.5", "    yalign 0.0", "",
     "# The game starts here.", "", "label start:", ""]
  let initBlock :=
    if usedVars.length > 0 then
      ["    # Initialize variables"] ++ usedVars.map (fun v => "    $ " ++ v ++ " = 0") ++ [""]
    else []
  let mainRes : Option (List String × EmitSt) :=
    if !strOptFalsy dialog.rootNodeId &&
        (getNode dialog.nodes (dialog.rootNodeId.getD "")).isSome then
      (convertNodeToRenPy ctx fuel (dialog.rootNodeId.getD "") [] ⟨[], []⟩ 1 false).map
        (fun r => (r.1, r.2.2))
    else some (["    # No dialog nodes found."], ⟨[], []⟩)
  mainRes >>= fun main =>
    (processLabels ctx fuel 0 [] main.2).map
      (fun labels =>
        header ++ charSection.1 ++ transformBlock ++ initBlock ++ main.1 ++
          ["", "    # This ends the game.", "    return", ""] ++ labels.1)

/-- The joined script text, as the source returns it. -/
def exportToRenPyText (fuel : Nat) (dialog : Dialog)
    (characters : List (String × Character)) (scenes : List (String × Scene)) :
    Option String :=
  (exportToRenPy fuel dialog characters scenes).map (String.intercalate "\n")

/-! ### The bidirectional edge-symmetry invariant (spec §3) -/

/-- Decidable form of the invariant: every `childNodeIds` entry of a stored
node appears as a `parentNodeIds` entry on the referenced node, and vice
versa (vacuous for dangling references). -/
def edgeSymOK (nodes : List (String × DialogNode)) : Bool :=
  nodes.all (fun p =>
    p.2.childNodeIds.all (fun c =>
      match getNode nodes c with
      | some m => m.parentNodeIds.contains p.1
      | none => true) &&
    p.2.parentNodeIds.all (fun q =>
      match getNode nodes q with
      | some m => m.childNodeIds.contains p.1
      | none => true))

/-- Propositional form of `edgeSymOK`, convenient for the preservation proofs. -/
def EdgeSymP (nodes : List (String × DialogNode)) : Prop :=
  ∀ pr ∈ nodes,
    (∀ c ∈ pr.2.childNodeIds, ∀ m, getNode nodes c = some m → pr.1 ∈ m.parentNodeIds) ∧
    (∀ q ∈ pr.2.parentNodeIds, ∀ m, getNode nodes q = some m → pr.1 ∈ m.childNodeIds)

/-! ### Concrete example graphs used by the claim theorems -/

/-- A one-node dialog for the history claims. -/
def exNodeA : DialogNode := { id := "n", speaker := some Speaker.NPC, text := "orig" }

/-- Dialog wrapping `exNodeA`. -/
def exDialogA : Dialog := { id := "d", rootNodeId := some "n", nodes := [("n", exNodeA)] }

/-- A freshly loaded store: empty history, index −1. -/
def exStoreA : StoreState :=
  { currentDialog := some exDialogA, history := [], historyIndex := -1 }

/-- A text edit of node `n`. -/
def exMutA : Mutation := Mutation.updateNode 7 "n" { text := some "changed" }

/-- A store whose history already holds 50 snapshots with the index rewound to
10 by undos. -/
def exStoreB : StoreState :=
  { currentDialog := some exDialogA, history := List.replicate 50 exDialogA, historyIndex := 10 }

/-- An isolated node `p` for the `addNode` symmetry counterexample. -/
def exNodeP : DialogNode := { id := "p" }

/-- Dialog containing only `p`. -/
def exDialogP : Dialog := { id := "dp", rootNodeId := some "p", nodes := [("p", exNodeP)] }

/-- A node that claims `p` as parent without `p` listing it back. -/
def exNodeC : DialogNode := { id := "c", parentNodeIds := ["p"] }

/-- Parent node with the edge `p → c` already present. -/
def exNodeP2 : DialogNode := { id := "p", childNodeIds := ["c"] }

/-- Child node with the edge `p → c` already present. -/
def exNodeC2 : DialogNode := { id := "c", parentNodeIds := ["p"] }

/-- Two-node dialog where `p → c` already exists. -/
def exDialogPC : Dialog :=
  { id := "dpc", rootNodeId := some "p", nodes := [("p", exNodeP2), ("c", exNodeC2)] }

/-- A side-effect node that is a parent of the conversation root. -/
def exVarParent : DialogNode :=
  { id := "v", type := some NType.setVariable, speaker := some Speaker.NPC,
    variableName := some "x", variableValue := some (Value.num 1), childNodeIds := ["r"] }

/-- The dialog node below `exVarParent`. -/
def exDlgChild : DialogNode :=
  { id := "r", speaker := some Speaker.NPC, text := "hi", parentNodeIds := ["v"] }

/-- Dialog for the reachable-set claim: a special parent above the root. -/
def exDialogC5 : Dialog :=
  { id := "d5", rootNodeId := some "r", nodes := [("v", exVarParent), ("r", exDlgChild)] }

/-- Shared-node graph that is disconnected from the root. -/
def exB0Root : DialogNode := { id := "r", speaker := some Speaker.NPC, text := "ROOT" }

/-- First NPC parent of the (unreachable) shared node. -/
def exB0P1 : DialogNode :=
  { id := "p1", speaker := some Speaker.NPC, text := "P1", childNodeIds := ["s"] }

/-- Second NPC parent of the (unreachable) shared node. -/
def exB0P2 : DialogNode :=
  { id := "p2", speaker := some Speaker.NPC, text := "P2", childNodeIds := ["s"] }

/-- The shared node with two parents, unreachable from the root. -/
def exB0S : DialogNode :=
  { id := "s", speaker := some Speaker.NPC, text := "SHARED", parentNodeIds := ["p1", "p2"] }

/-- Dialog whose root never reaches the shared node. -/
def exDialogB0 : Dialog :=
  { id := "b0", rootNodeId := some "r",
    nodes := [("r", exB0Root), ("p1", exB0P1), ("p2", exB0P2), ("s", exB0S)] }

/-- Scenario B root: NPC with two player choices. -/
def exBRoot : DialogNode :=
  { id := "r", speaker := some Speaker.NPC, text := "HELLO", childNodeIds := ["u1", "u2"] }

/-- Scenario B first player choice. -/
def exBU1 : DialogNode :=
  { id := "u1", speaker := some Speaker.player, text := "U1",
    parentNodeIds := ["r"], childNodeIds := ["p1"] }

/-- Scenario B second player choice. -/
def exBU2 : DialogNode :=
  { id := "u2", speaker := some Speaker.player, text := "U2",
    parentNodeIds := ["r"], childNodeIds := ["p2"] }

/-- Scenario B first NPC reply, referencing the shared node. -/
def exBP1 : DialogNode :=
  { id := "p1", speaker := some Speaker.NPC, text := "P1TEXT",
    parentNodeIds := ["u1"], childNodeIds := ["s"] }

/-- Scenario B second NPC reply, referencing the shared node. -/
def exBP2 : DialogNode :=
  { id := "p2", speaker := some Speaker.NPC, text := "P2TEXT",
    parentNodeIds := ["u2"], childNodeIds := ["s"] }

/-- Scenario B shared node with two NPC parents. -/
def exBS : DialogNode :=
  { id := "s", speaker := some Speaker.NPC, text := "SHARED", parentNodeIds := ["p1", "p2"] }

/-- Scenario B dialog: both reference sites are reachable from the root. -/
def exDialogB : Dialog :=
  { id := "b", rootNodeId := some "r",
    nodes := [("r", exBRoot), ("u1", exBU1), ("u2", exBU2),
              ("p1", exBP1), ("p2", exBP2), ("s", exBS)] }

/-- A switch-case node as the UI creates it: `switchVariable` set,
`conditionVariable` absent. -/
def exSwitch : DialogNode :=
  { id := "w", type := some NType.switchCase, speaker := some Speaker.NPC,
    switchVariable := some "hp", cases := some [{ value := Value.num 1 }] }

/-- Dialog whose root is the switch-case node. -/
def exDialogC8 : Dialog := { id := "d8", rootNodeId := some "w", nodes := [("w", exSwitch)] }

/-- A set-background node in a two-node cycle. -/
def exCycA : DialogNode :=
  { id := "a", type := some NType.setBackground, speaker := some Speaker.NPC,
    backgroundImage := some "room", childNodeIds := ["b"], parentNodeIds := ["b"] }

/-- The other set-background node of the cycle. -/
def exCycB : DialogNode :=
  { id := "b", type := some NType.setBackground, speaker := some Speaker.NPC,
    backgroundImage := some "hall", childNodeIds := ["a"], parentNodeIds := ["a"] }

/-- A structurally valid dialog whose side-effect nodes form a cycle. -/
def exDialogCyc : Dialog :=
  { id := "dc", rootNodeId := some "a", nodes := [("a", exCycA), ("b", exCycB)] }

/-- The emission context `exportToRenPy` builds for `exDialogCyc`. -/
def exCtxCyc : EmitCtx := ⟨exDialogCyc.nodes, [], [], []⟩


/-- A store whose history holds 50 snapshots with the index at the top. -/
def exStoreC2 : StoreState :=
  { currentDialog := some exDialogA, history := List.replicate 50 exDialogA, historyIndex := 49 }

/-- A second isolated node for the link/unlink round-trip witness. -/
def exNodeQ : DialogNode := { id := "q" }

/-- Two isolated nodes with no edge between them. -/
def exDialogPQ : Dialog :=
  { id := "dpq", rootNodeId := some "p", nodes := [("p", exNodeP), ("q", exNodeQ)] }

/-- A fresh unconnected node for the `addNode` preservation witness. -/
def exNodeZ : DialogNode := { id := "z" }

/-- A change-variable node adding 5 to `x`. -/
def exChg5 : DialogNode :=
  { id := "g", type := some NType.changeVariable, variableName := some "x",
    variableValue := some (Value.num 5) }

/-! ### Association-list lemmas -/

theorem beq_false_of_ne {a b : String} (h : ¬a = b) : (a == b) = false := by
  simp [h]

theorem getNode_cons (p : String × DialogNode) (l : List (String × DialogNode)) (x : String) :
    getNode (p :: l) x = if p.1 = x then some p.2 else getNode l x := by
  by_cases h : p.1 = x
  · simp [getNode, List.find?, h]
  · simp [getNode, List.find?, beq_false_of_ne h, h]

theorem getNode_updateEntry (l : List (String × DialogNode)) (k : String)
    (f : DialogNode → DialogNode) (x : String) :
    getNode (updateEntry l k f) x = if x = k then (getNode l x).map f else getNode l x := by
  induction l with
  | nil => simp [getNode, updateEntry]
  | cons hd tl ih =>
      have hue : updateEntry (hd :: tl) k f =
          (if hd.1 == k then (hd.1, f hd.2) else hd) :: updateEntry tl k f := by
        simp [updateEntry]
      rw [hue]
      by_cases hk : hd.1 = k
      · by_cases hx : x = k
        · subst hx
          simp [hk, getNode_cons]
        · have hdx : ¬hd.1 = x := fun hh => hx (hk ▸ hh.symm ▸ rfl)
          have hkx : ¬k = x := fun hh => hx hh.symm
          simp only [hk, beq_self_eq_true, if_true, getNode_cons]
          simp [hdx, hx, hkx, ih]
      · have hne : (hd.1 == k) = false := beq_false_of_ne hk
        simp only [hne, Bool.false_eq_true, if_false]
        by_cases hx : hd.1 = x
        · by_cases hxk : x = k
          · exact absurd (hx.trans hxk) hk
          · simp [getNode_cons, hx, hxk]
        · simp [getNode_cons, hx, ih]

theorem getNode_isSome_any (l : List (String × DialogNode)) (k : String) :
    (getNode l k).isSome ↔ l.any (fun p => p.1 == k) = true := by
  simp [getNode, List.find?_isSome, List.any_eq_true]

theorem getNode_append_left (l l2 : List (String × DialogNode)) (x : String)
    (w : DialogNode) (h : getNode l x = some w) : getNode (l ++ l2) x = some w := by
  induction l with
  | nil => simp [getNode] at h
  | cons hd tl ih =>
      rw [getNode_cons] at h
      by_cases hk : hd.1 = x
      · rw [List.cons_append, getNode_cons, if_pos hk]
        simpa [hk] using h
      · rw [List.cons_append, getNode_cons, if_neg hk]
        exact ih (by simpa [hk] using h)

theorem getNode_append_right (l : List (String × DialogNode)) (q : String × DialogNode)
    (x : String) (h : getNode l x = none) :
    getNode (l ++ [q]) x = if q.1 = x then some q.2 else none := by
  induction l with
  | nil => simp [getNode_cons, getNode]
  | cons hd tl ih =>
      rw [getNode_cons] at h
      by_cases hk : hd.1 = x
      · simp [hk] at h
      · rw [List.cons_append, getNode_cons, if_neg hk]
        exact ih (by simpa [hk] using h)

theorem setEntry_eq (l : List (String × DialogNode)) (k : String) (v : DialogNode) :
    setEntry l k v =
      if l.any (fun p => p.1 == k) then updateEntry l k (fun _ => v) else l ++ [(k, v)] := by
  unfold setEntry updateEntry
  split
  · congr 1
    funext p
    by_cases h : p.1 = k
    · simp [h]
    · simp [beq_false_of_ne h]
  · rfl

theorem getNode_setEntry_self (l : List (String × DialogNode)) (k : String) (v : DialogNode) :
    getNode (setEntry l k v) k = some v := by
  rw [setEntry_eq]
  split
  · rename_i hany
    rw [getNode_updateEntry]
    obtain ⟨w, hw⟩ := Option.isSome_iff_exists.mp ((getNode_isSome_any l k).mpr hany)
    simp [hw]
  · rename_i hany
    have hnone : getNode l k = none := by
      cases hgn : getNode l k with
      | none => rfl
      | some w =>
          exact absurd ((getNode_isSome_any l k).mp (by simp [hgn])) (by simpa using hany)
    rw [getNode_append_right _ _ _ hnone]
    simp

theorem getNode_setEntry_ne (l : List (String × DialogNode)) (k : String) (v : DialogNode)
    (x : String) (h : ¬x = k) : getNode (setEntry l k v) x = getNode l x := by
  rw [setEntry_eq]
  split
  · rw [getNode_updateEntry, if_neg h]
  · cases hx : getNode l x with
    | none =>
        rw [getNode_append_right _ _ _ hx]
        have hkx : ¬(k, v).1 = x := fun hh => h hh.symm
        simp [hkx]
    | some w => exact getNode_append_left _ _ _ _ hx

theorem bne_false_of_eq {a b : String} (h : a = b) : (a != b) = false := by
  simp [h]

theorem bne_true_of_ne {a b : String} (h : ¬a = b) : (a != b) = true := by
  simp [h]

theorem getNode_removeEntry_self (l : List (String × DialogNode)) (k : String) :
    getNode (removeEntry l k) k = none := by
  induction l with
  | nil => rfl
  | cons hd tl ih =>
      by_cases hk : hd.1 = k
      · rw [removeEntry, List.filter_cons] at *
        simpa [bne_false_of_eq hk] using ih
      · rw [removeEntry, List.filter_cons] at *
        simpa [bne_true_of_ne hk, getNode_cons, hk] using ih

theorem getNode_removeEntry_ne (l : List (String × DialogNode)) (k x : String)
    (h : ¬x = k) : getNode (removeEntry l k) x = getNode l x := by
  induction l with
  | nil => rfl
  | cons hd tl ih =>
      rw [removeEntry, List.filter_cons] at *
      by_cases hk : hd.1 = k
      · have hdx : ¬hd.1 = x := fun hh => h (hh.symm.trans hk)
        simpa [bne_false_of_eq hk, getNode_cons, hdx] using ih
      · by_cases hdx : hd.1 = x
        · simp [bne_true_of_ne hk, getNode_cons, hdx, h]
        · simpa [bne_true_of_ne hk, getNode_cons, hdx] using ih

theorem foldl_updateEntry_eq_map (ids : List String) (f : DialogNode → DialogNode)
    (hf : ∀ v, f (f v) = f v) (l : List (String × DialogNode)) :
    ids.foldl (fun acc i => updateEntry acc i f) l =
      l.map (fun pr => if pr.1 ∈ ids then (pr.1, f pr.2) else pr) := by
  induction ids generalizing l with
  | nil => simp
  | cons i ids ih =>
      rw [List.foldl_cons, ih, updateEntry, List.map_map]
      congr 1
      funext pr
      by_cases hi : pr.1 = i
      · by_cases hmem : pr.1 ∈ ids <;> simp [Function.comp, hi, hmem, hf]
      · by_cases hmem : pr.1 ∈ ids <;>
          simp [Function.comp, beq_false_of_ne hi, hi, hmem]


theorem getNode_map_keyfix (g : String × DialogNode → String × DialogNode)
    (hg : ∀ pr, (g pr).1 = pr.1) (l : List (String × DialogNode)) (x : String) :
    getNode (l.map g) x = (l.find? (fun p => p.1 == x)).map (fun pr => (g pr).2) := by
  induction l with
  | nil => rfl
  | cons hd tl ih =>
      rw [List.map_cons, getNode_cons, hg hd]
      by_cases hx : hd.1 = x
      · simp [List.find?, hx]
      · simp only [List.find?, beq_false_of_ne hx, if_neg hx]
        exact ih

theorem stripChild_idem (r : String) (v : DialogNode) :
    stripChild r (stripChild r v) = stripChild r v := by
  simp [stripChild, List.filter_filter]

theorem stripParent_idem (r : String) (v : DialogNode) :
    stripParent r (stripParent r v) = stripParent r v := by
  simp [stripParent, List.filter_filter]

/-- The effect of `deleteNode(r)` on lookups: the node is gone, the root field
is untouched, and every other stored node keeps its entry with `r` stripped
from `childNodeIds` when it was a parent of `r` and from `parentNodeIds` when
it was a child of `r`. -/
theorem deleteNodeG_spec (d : Dialog) (now : Nat) (r : String) (n : DialogNode)
    (h : getNode d.nodes r = some n) :
    (deleteNodeG now r d).rootNodeId = d.rootNodeId ∧
    getNode (deleteNodeG now r d).nodes r = none ∧
    ∀ x, ¬x = r → getNode (deleteNodeG now r d).nodes x =
      (getNode d.nodes x).map (fun v =>
        { v with
            childNodeIds :=
              if x ∈ n.parentNodeIds then v.childNodeIds.filter (fun i => i != r)
              else v.childNodeIds,
            parentNodeIds :=
              if x ∈ n.childNodeIds then v.parentNodeIds.filter (fun i => i != r)
              else v.parentNodeIds }) := by
  have hdel : deleteNodeG now r d =
      { d with
          nodes := removeEntry
            (n.childNodeIds.foldl
              (fun acc cid => updateEntry acc cid (stripParent r))
              (n.parentNodeIds.foldl
                (fun acc pid => updateEntry acc pid (stripChild r)) d.nodes)) r,
          updatedAt := now } := by
    unfold deleteNodeG
    rw [h]
  rw [hdel]
  refine ⟨rfl, getNode_removeEntry_self _ _, ?_⟩
  intro x hx
  rw [getNode_removeEntry_ne _ _ _ hx]
  rw [foldl_updateEntry_eq_map _ _ (stripChild_idem r),
      foldl_updateEntry_eq_map _ _ (stripParent_idem r), List.map_map]
  rw [getNode_map_keyfix]
  · cases hf : d.nodes.find? (fun p => p.1 == x) with
    | none => simp [getNode, hf]
    | some pr =>
        have hpr1 : pr.1 = x := by
          have := List.find?_some hf
          simpa using this
        by_cases h1 : x ∈ n.parentNodeIds <;> by_cases h2 : x ∈ n.childNodeIds <;>
          simp [getNode, hf, Function.comp, hpr1, h1, h2, stripChild, stripParent]
  · intro pr
    by_cases h1 : pr.1 ∈ n.parentNodeIds <;> by_cases h2 : pr.1 ∈ n.childNodeIds <;>
      simp [h1, h2]


theorem filter_ne_append_self (l : List String) (c : String) (h : c ∉ l) :
    (l ++ [c]).filter (fun i => i != c) = l := by
  rw [List.filter_append]
  have h1 : l.filter (fun i => i != c) = l :=
    List.filter_eq_self.mpr (fun a ha => bne_true_of_ne (fun he => h (he ▸ ha)))
  simp [h1]

theorem linkUnlink_roundtrip (d : Dialog) (n1 n2 : Nat) (p c : String) (P C : DialogNode)
    (hP : getNode d.nodes p = some P) (hC : getNode d.nodes c = some C)
    (hpc : ¬p = c) (hcP : c ∉ P.childNodeIds) (hpC : p ∉ C.parentNodeIds) :
    getNode (unlinkNodesG n2 p c (linkNodesG n1 p c d)).nodes p = some P ∧
    getNode (unlinkNodesG n2 p c (linkNodesG n1 p c d)).nodes c = some C ∧
    ∀ x, ¬x = p → ¬x = c →
      getNode (unlinkNodesG n2 p c (linkNodesG n1 p c d)).nodes x = getNode d.nodes x := by
  have hcp : ¬c = p := fun h => hpc h.symm
  have hgp1 : getNode (linkNodesG n1 p c d).nodes p =
      some { P with childNodeIds := P.childNodeIds ++ [c] } := by
    simp only [linkNodesG, hP, hC]
    rw [getNode_updateEntry, if_neg hpc, getNode_updateEntry, if_pos rfl, hP]
    simp [hcP]
  have hgc1 : getNode (linkNodesG n1 p c d).nodes c =
      some { C with parentNodeIds := C.parentNodeIds ++ [p] } := by
    simp only [linkNodesG, hP, hC]
    rw [getNode_updateEntry, if_pos rfl, getNode_updateEntry, if_neg hcp, hC]
    simp [hpC]
  have hgx1 : ∀ x, ¬x = p → ¬x = c →
      getNode (linkNodesG n1 p c d).nodes x = getNode d.nodes x := by
    intro x hxp hxc
    simp only [linkNodesG, hP, hC]
    rw [getNode_updateEntry, if_neg hxc, getNode_updateEntry, if_neg hxp]
  have hfiltc : (P.childNodeIds ++ [c]).filter (fun i => i != c) = P.childNodeIds :=
    filter_ne_append_self _ _ hcP
  have hfiltp : (C.parentNodeIds ++ [p]).filter (fun i => i != p) = C.parentNodeIds :=
    filter_ne_append_self _ _ hpC
  refine ⟨?_, ?_, ?_⟩
  · simp only [unlinkNodesG, hgp1, hgc1]
    rw [getNode_updateEntry, if_neg hpc, getNode_updateEntry, if_pos rfl, hgp1]
    simp [hfiltc]
  · simp only [unlinkNodesG, hgp1, hgc1]
    rw [getNode_updateEntry, if_pos rfl, getNode_updateEntry, if_neg hcp, hgc1]
    simp [hfiltp]
  · intro x hxp hxc
    simp only [unlinkNodesG, hgp1, hgc1]
    rw [getNode_updateEntry, if_neg hxc, getNode_updateEntry, if_neg hxp]
    exact hgx1 x hxp hxc


theorem jsSliceTo_length_le (l : List Dialog) (e : Int) : (jsSliceTo l e).length ≤ l.length := by
  unfold jsSliceTo
  split <;> simp [List.length_take]

theorem jsSliceTo_all (l : List Dialog) : jsSliceTo l (l.length : Int) = l := by
  unfold jsSliceTo
  rw [if_neg (by omega)]
  simp

theorem saveToHistory_shape (s : StoreState) (d : Dialog) (h : s.currentDialog = some d) :
    ∃ H : List Dialog, (saveToHistory s).currentDialog = some d ∧
      (saveToHistory s).history = H ++ [d] ∧
      (saveToHistory s).historyIndex = (H.length : Int) := by
  by_cases hgt : (jsSliceTo s.history (s.historyIndex + 1) ++ [d]).length > 50
  · have hsave : saveToHistory s =
        { s with
            history := (jsSliceTo s.history (s.historyIndex + 1) ++ [d]).drop 1,
            historyIndex :=
              ((jsSliceTo s.history (s.historyIndex + 1) ++ [d]).length : Int) - 1 - 1 } := by
      simp only [saveToHistory, h]
      rw [if_pos hgt]
    have hne : 1 ≤ (jsSliceTo s.history (s.historyIndex + 1)).length := by
      simp at hgt
      omega
    refine ⟨(jsSliceTo s.history (s.historyIndex + 1)).drop 1, ?_, ?_, ?_⟩
    · rw [hsave]
      exact h
    · rw [hsave]
      exact List.drop_append_of_le_length hne
    · rw [hsave]
      simp
      omega
  · have hsave : saveToHistory s =
        { s with
            history := jsSliceTo s.history (s.historyIndex + 1) ++ [d],
            historyIndex :=
              ((jsSliceTo s.history (s.historyIndex + 1) ++ [d]).length : Int) - 1 } := by
      simp only [saveToHistory, h]
      rw [if_neg hgt]
    refine ⟨jsSliceTo s.history (s.historyIndex + 1), ?_, ?_, ?_⟩
    · rw [hsave]
      exact h
    · rw [hsave]
    · rw [hsave]
      simp

theorem saveToHistory_aligned (s : StoreState) (d g : Dialog) (H : List Dialog)
    (hc : s.currentDialog = some d) (hh : s.history = H ++ [g])
    (hi : s.historyIndex = (H.length : Int)) :
    ∃ H2, (saveToHistory s).currentDialog = some d ∧
      (saveToHistory s).history = H2 ++ [g, d] ∧
      (saveToHistory s).historyIndex = (H2.length : Int) + 1 := by
  have hslice : jsSliceTo s.history (s.historyIndex + 1) = H ++ [g] := by
    rw [hh, hi]
    have he : (H.length : Int) + 1 = (((H ++ [g]).length : Nat) : Int) := by
      simp
    rw [he, jsSliceTo_all]
  by_cases hgt : (jsSliceTo s.history (s.historyIndex + 1) ++ [d]).length > 50
  · have hsave : saveToHistory s =
        { s with
            history := (jsSliceTo s.history (s.historyIndex + 1) ++ [d]).drop 1,
            historyIndex :=
              ((jsSliceTo s.history (s.historyIndex + 1) ++ [d]).length : Int) - 1 - 1 } := by
      simp only [saveToHistory, hc]
      rw [if_pos hgt]
    rw [hslice] at hsave hgt
    have hHne : 1 ≤ H.length := by
      simp at hgt
      omega
    refine ⟨H.drop 1, ?_, ?_, ?_⟩
    · rw [hsave]
      exact hc
    · rw [hsave]
      show ((H ++ [g]) ++ [d]).drop 1 = H.drop 1 ++ [g, d]
      rw [List.append_assoc]
      have : [g] ++ [d] = [g, d] := rfl
      rw [this]
      exact List.drop_append_of_le_length hHne
    · rw [hsave]
      simp
      omega
  · have hsave : saveToHistory s =
        { s with
            history := jsSliceTo s.history (s.historyIndex + 1) ++ [d],
            historyIndex :=
              ((jsSliceTo s.history (s.historyIndex + 1) ++ [d]).length : Int) - 1 } := by
      simp only [saveToHistory, hc]
      rw [if_neg hgt]
    rw [hslice] at hsave
    refine ⟨H, ?_, ?_, ?_⟩
    · rw [hsave]
      exact hc
    · rw [hsave]
      simp
    · rw [hsave]
      simp
      omega

theorem undo_redo_of_aligned (s : StoreState) (H2 : List Dialog) (g d : Dialog)
    (hh : s.history = H2 ++ [g, d]) (hi : s.historyIndex = (H2.length : Int) + 1) :
    (undo s).currentDialog = some g ∧ (redo (undo s)).currentDialog = some d := by
  have hpos : s.historyIndex > 0 := by
    rw [hi]
    omega
  have hundo : undo s =
      { s with historyIndex := s.historyIndex - 1,
               currentDialog := jsIndex s.history (s.historyIndex - 1) } := by
    simp only [undo]
    rw [if_pos hpos]
  have hgetg : jsIndex s.history (s.historyIndex - 1) = some g := by
    rw [hh, hi]
    have h0 : (H2.length : Int) + 1 - 1 = (H2.length : Int) := by omega
    rw [h0]
    unfold jsIndex
    rw [if_neg (by omega)]
    rw [Int.toNat_natCast]
    rw [List.get?_append_right (le_refl _)]
    simp
  constructor
  · rw [hundo, hgetg]
  · have hui : (undo s).historyIndex = (H2.length : Int) := by
      rw [hundo]
      simp [hi]
    have huh : (undo s).history = H2 ++ [g, d] := by
      rw [hundo]
      exact hh
    have hcond : (undo s).historyIndex < ((undo s).history.length : Int) - 1 := by
      rw [hui, huh]
      simp
      omega
    have hredo : redo (undo s) =
        { undo s with historyIndex := (undo s).historyIndex + 1,
                      currentDialog := jsIndex (undo s).history ((undo s).historyIndex + 1) } := by
      simp only [redo]
      rw [if_pos hcond]
    rw [hredo, huh, hui]
    unfold jsIndex
    rw [if_neg (by omega)]
    have : ((H2.length : Int) + 1).toNat = H2.length + 1 := by omega
    rw [this]
    rw [List.get?_append_right (by omega)]
    simp

theorem applyMutation_some (m : Mutation) (s : StoreState) (g : Dialog)
    (h : s.currentDialog = some g) :
    applyMutation m s = { s with currentDialog := some (m.onGraph g) } := by
  unfold applyMutation onDialog
  rw [h]


theorem claimCheck_C1 (s : StoreState) (g : Dialog) (m : Mutation)
    (h : s.currentDialog = some g) :
    (undo (saveToHistory (applyMutation m (saveToHistory s)))).currentDialog = some g ∧
    (redo (undo (saveToHistory (applyMutation m (saveToHistory s))))).currentDialog =
      some (m.onGraph g) := by
  obtain ⟨H, hc1, hh1, hi1⟩ := saveToHistory_shape s g h
  have ha := applyMutation_some m (saveToHistory s) g hc1
  have hc2 : (applyMutation m (saveToHistory s)).currentDialog = some (m.onGraph g) := by
    rw [ha]
  have hh2 : (applyMutation m (saveToHistory s)).history = H ++ [g] := by
    rw [ha]
    exact hh1
  have hi2 : (applyMutation m (saveToHistory s)).historyIndex = (H.length : Int) := by
    rw [ha]
    exact hi1
  obtain ⟨H2, _, hh3, hi3⟩ :=
    saveToHistory_aligned (applyMutation m (saveToHistory s)) (m.onGraph g) g H hc2 hh2 hi2
  exact undo_redo_of_aligned _ H2 g (m.onGraph g) hh3 hi3

theorem claimCheck_C2 (s : StoreState) (d : Dialog)
    (hc : s.currentDialog = some d) (hlen : s.history.length = 50)
    (hidx : s.historyIndex = 49) :
    ((saveToHistory s).history = s.history.drop 1 ++ [d] ∧
     (saveToHistory s).history.length = 50 ∧
     (saveToHistory s).historyIndex = 49) := by
  have hslice : jsSliceTo s.history (s.historyIndex + 1) = s.history := by
    rw [hidx]
    have he : (49 : Int) + 1 = ((s.history.length : Nat) : Int) := by
      rw [hlen]
      rfl
    rw [he, jsSliceTo_all]
  have hgt : (jsSliceTo s.history (s.historyIndex + 1) ++ [d]).length > 50 := by
    rw [hslice]
    simp [hlen]
  have hsave : saveToHistory s =
      { s with
          history := (jsSliceTo s.history (s.historyIndex + 1) ++ [d]).drop 1,
          historyIndex :=
            ((jsSliceTo s.history (s.historyIndex + 1) ++ [d]).length : Int) - 1 - 1 } := by
    simp only [saveToHistory, hc]
    rw [if_pos hgt]
  rw [hslice] at hsave
  have hne : 1 ≤ s.history.length := by omega
  refine ⟨?_, ?_, ?_⟩
  · rw [hsave]
    exact List.drop_append_of_le_length hne
  · rw [hsave]
    simp [hlen]
  · rw [hsave]
    simp [hlen]

theorem saveToHistory_bound (t : StoreState) (h : t.history.length ≤ 50) :
    (saveToHistory t).history.length ≤ 50 := by
  cases hc : t.currentDialog with
  | none =>
      simp only [saveToHistory, hc]
      exact h
  | some d =>
      have hsl := jsSliceTo_length_le t.history (t.historyIndex + 1)
      by_cases hgt : (jsSliceTo t.history (t.historyIndex + 1) ++ [d]).length > 50
      · have hsave : saveToHistory t =
            { t with
                history := (jsSliceTo t.history (t.historyIndex + 1) ++ [d]).drop 1,
                historyIndex :=
                  ((jsSliceTo t.history (t.historyIndex + 1) ++ [d]).length : Int) - 1 - 1 } := by
          simp only [saveToHistory, hc]
          rw [if_pos hgt]
        rw [hsave]
        simp
        omega
      · have hsave : saveToHistory t =
            { t with
                history := jsSliceTo t.history (t.historyIndex + 1) ++ [d],
                historyIndex :=
                  ((jsSliceTo t.history (t.historyIndex + 1) ++ [d]).length : Int) - 1 } := by
          simp only [saveToHistory, hc]
          rw [if_neg hgt]
        rw [hsave]
        simp at hgt ⊢
        omega


theorem edgeSymOK_iff (nodes : List (String × DialogNode)) :
    edgeSymOK nodes = true ↔ EdgeSymP nodes := by
  unfold edgeSymOK EdgeSymP
  rw [List.all_eq_true]
  apply forall_congr'
  intro pr
  apply forall_congr'
  intro _
  rw [Bool.and_eq_true]
  apply and_congr
  · rw [List.all_eq_true]
    apply forall_congr'
    intro c
    apply forall_congr'
    intro _
    cases hg : getNode nodes c <;> simp [hg]
  · rw [List.all_eq_true]
    apply forall_congr'
    intro q
    apply forall_congr'
    intro _
    cases hg : getNode nodes q <;> simp [hg]

theorem mem_updateEntry (l : List (String × DialogNode)) (k : String)
    (f : DialogNode → DialogNode) (q : String × DialogNode) (h : q ∈ updateEntry l k f) :
    ∃ pr ∈ l, q = if pr.1 = k then (pr.1, f pr.2) else pr := by
  unfold updateEntry at h
  obtain ⟨pr, hpr, heq⟩ := List.mem_map.mp h
  refine ⟨pr, hpr, ?_⟩
  by_cases hk : pr.1 = k
  · have hb : (pr.1 == k) = true := by simp [hk]
    rw [hb] at heq
    simp only [if_true] at heq
    rw [if_pos hk]
    exact heq.symm
  · have hb : (pr.1 == k) = false := beq_false_of_ne hk
    rw [hb] at heq
    simp only [Bool.false_eq_true, if_false] at heq
    rw [if_neg hk]
    exact heq.symm

theorem linkNodesG_sym (d : Dialog) (now : Nat) (p c : String)
    (h : EdgeSymP d.nodes) : EdgeSymP (linkNodesG now p c d).nodes := by
  cases hP : getNode d.nodes p with
  | none =>
      simpa [linkNodesG, hP] using h
  | some P =>
  cases hC : getNode d.nodes c with
  | none =>
      simpa [linkNodesG, hP, hC] using h
  | some C =>
  set fA : DialogNode → DialogNode := fun v =>
    if c ∈ v.childNodeIds then v
    else { v with childNodeIds := v.childNodeIds ++ [c] } with hfA
  set fB : DialogNode → DialogNode := fun v =>
    if p ∈ v.parentNodeIds then v
    else { v with parentNodeIds := v.parentNodeIds ++ [p] } with hfB
  have hnodes : (linkNodesG now p c d).nodes = updateEntry (updateEntry d.nodes p fA) c fB := by
    simp only [linkNodesG, hP, hC]
  rw [hnodes]
  -- shapes of the two updates
  have hAchild : ∀ v, (fA v).childNodeIds = v.childNodeIds ∨
      (fA v).childNodeIds = v.childNodeIds ++ [c] := by
    intro v
    by_cases hm : c ∈ v.childNodeIds <;> simp [hfA, hm]
  have hAparent : ∀ v, (fA v).parentNodeIds = v.parentNodeIds := by
    intro v
    by_cases hm : c ∈ v.childNodeIds <;> simp [hfA, hm]
  have hBparent : ∀ v, (fB v).parentNodeIds = v.parentNodeIds ∨
      (fB v).parentNodeIds = v.parentNodeIds ++ [p] := by
    intro v
    by_cases hm : p ∈ v.parentNodeIds <;> simp [hfB, hm]
  have hBchild : ∀ v, (fB v).childNodeIds = v.childNodeIds := by
    intro v
    by_cases hm : p ∈ v.parentNodeIds <;> simp [hfB, hm]
  have hAmem : ∀ v, c ∈ (fA v).childNodeIds := by
    intro v
    by_cases hm : c ∈ v.childNodeIds <;> simp [hfA, hm]
  have hBmem : ∀ v, p ∈ (fB v).parentNodeIds := by
    intro v
    by_cases hm : p ∈ v.parentNodeIds <;> simp [hfB, hm]
  -- lookups in the updated map
  have hlook : ∀ x m, getNode (updateEntry (updateEntry d.nodes p fA) c fB) x = some m →
      ∃ m0, getNode d.nodes x = some m0 ∧
        (m.childNodeIds = m0.childNodeIds ∨ m.childNodeIds = m0.childNodeIds ++ [c]) ∧
        (m.parentNodeIds = m0.parentNodeIds ∨ m.parentNodeIds = m0.parentNodeIds ++ [p]) ∧
        (x = c → p ∈ m.parentNodeIds) ∧
        (x = p → c ∈ m.childNodeIds) := by
    intro x m hm
    rw [getNode_updateEntry, getNode_updateEntry] at hm
    by_cases hxc : x = c <;> by_cases hxp : x = p
    · -- x = c and x = p (linking a node to itself)
      subst hxc
      rw [if_pos rfl, if_pos hxp, hC] at hm
      simp only [Option.map_some', Option.some.injEq] at hm
      refine ⟨C, hC, ?_, ?_, ?_, ?_⟩
      · rw [← hm, hBchild]
        exact hAchild C
      · rw [← hm]
        rcases hBparent (fA C) with h1 | h1 <;> rw [h1, hAparent]
        · exact Or.inl rfl
        · exact Or.inr rfl
      · intro _
        rw [← hm]
        exact hBmem _
      · intro _
        rw [← hm, hBchild]
        exact hAmem _
    · rw [if_pos hxc, if_neg hxp] at hm
      subst hxc
      rw [hC] at hm
      simp only [Option.map_some', Option.some.injEq] at hm
      refine ⟨C, hC, ?_, ?_, ?_, ?_⟩
      · rw [← hm, hBchild]
        exact Or.inl rfl
      · rw [← hm]
        exact hBparent C
      · intro _
        rw [← hm]
        exact hBmem _
      · intro hcp
        exact absurd hcp hxp
    · rw [if_neg hxc, if_pos hxp] at hm
      subst hxp
      rw [hP] at hm
      simp only [Option.map_some', Option.some.injEq] at hm
      refine ⟨P, hP, ?_, ?_, ?_, ?_⟩
      · rw [← hm]
        exact hAchild P
      · rw [← hm, hAparent]
        exact Or.inl rfl
      · intro hcp
        exact absurd hcp hxc
      · intro _
        rw [← hm]
        exact hAmem _
    · rw [if_neg hxc, if_neg hxp] at hm
      cases hx0 : getNode d.nodes x with
      | none => rw [hx0] at hm; simp at hm
      | some m0 =>
          rw [hx0] at hm
          simp only [Option.map_some', Option.some.injEq] at hm
          rw [← hm]
          exact ⟨m0, rfl, Or.inl rfl, Or.inl rfl,
            fun hx => absurd hx hxc, fun hx => absurd hx hxp⟩
  -- prove the invariant for every entry of the updated map
  intro pr' hpr'
  obtain ⟨pr1, hpr1, hq1⟩ := mem_updateEntry _ _ _ _ hpr'
  obtain ⟨pr0, hpr0, hq0⟩ := mem_updateEntry _ _ _ _ hpr1
  obtain ⟨hsym1, hsym2⟩ := h pr0 hpr0
  have hkey1 : pr'.1 = pr1.1 := by
    rw [hq1]
    split <;> rfl
  have hkey0 : pr1.1 = pr0.1 := by
    rw [hq0]
    split <;> rfl
  have hkey : pr'.1 = pr0.1 := hkey1.trans hkey0
  have hv1 : pr'.2 = if pr1.1 = c then fB pr1.2 else pr1.2 := by
    rw [hq1]
    split <;> rfl
  have hv0 : pr1.2 = if pr0.1 = p then fA pr0.2 else pr0.2 := by
    rw [hq0]
    split <;> rfl
  have hchild1 : pr'.2.childNodeIds = pr1.2.childNodeIds := by
    rw [hv1]
    split
    · exact hBchild _
    · rfl
  have hparent1 : pr1.2.parentNodeIds = pr0.2.parentNodeIds := by
    rw [hv0]
    split
    · exact hAparent _
    · rfl
  have hchild : pr'.2.childNodeIds = pr0.2.childNodeIds ∨
      (pr'.2.childNodeIds = pr0.2.childNodeIds ++ [c] ∧ pr0.1 = p) := by
    rw [hchild1, hv0]
    by_cases h0 : pr0.1 = p
    · rw [if_pos h0]
      rcases hAchild pr0.2 with ha | ha
      · exact Or.inl ha
      · exact Or.inr ⟨ha, h0⟩
    · rw [if_neg h0]
      exact Or.inl rfl
  have hparent : pr'.2.parentNodeIds = pr0.2.parentNodeIds ∨
      (pr'.2.parentNodeIds = pr0.2.parentNodeIds ++ [p] ∧ pr0.1 = c) := by
    rw [hv1]
    by_cases h1 : pr1.1 = c
    · rw [if_pos h1]
      rw [hkey0] at h1
      rcases hBparent pr1.2 with hb | hb
      · rw [hb, hparent1]
        exact Or.inl rfl
      · rw [hb, hparent1]
        exact Or.inr ⟨rfl, h1⟩
    · rw [if_neg h1]
      exact Or.inl hparent1
  constructor
  · intro ch hch m hm
    obtain ⟨m0, hm0, _, hmp, hmc, _⟩ := hlook ch m hm
    rcases hchild with hc1 | ⟨hc1, hkp⟩
    · rw [hc1] at hch
      have hk0 := hsym1 ch hch m0 hm0
      rw [hkey]
      rcases hmp with hp1 | hp1 <;> rw [hp1]
      · exact hk0
      · exact List.mem_append_left _ hk0
    · rw [hc1] at hch
      rcases List.mem_append.mp hch with hin | hin
      · have hk0 := hsym1 ch hin m0 hm0
        rw [hkey]
        rcases hmp with hp1 | hp1 <;> rw [hp1]
        · exact hk0
        · exact List.mem_append_left _ hk0
      · have hchc : ch = c := by simpa using hin
        rw [hkey, hkp]
        exact hmc hchc
  · intro q hq m hm
    obtain ⟨m0, hm0, hmch, _, _, hmcp⟩ := hlook q m hm
    rcases hparent with hp1 | ⟨hp1, hkc⟩
    · rw [hp1] at hq
      have hk0 := hsym2 q hq m0 hm0
      rw [hkey]
      rcases hmch with hx | hx <;> rw [hx]
      · exact hk0
      · exact List.mem_append_left _ hk0
    · rw [hp1] at hq
      rcases List.mem_append.mp hq with hin | hin
      · have hk0 := hsym2 q hin m0 hm0
        rw [hkey]
        rcases hmch with hx | hx <;> rw [hx]
        · exact hk0
        · exact List.mem_append_left _ hk0
      · have hqp : q = p := by simpa using hin
        rw [hkey, hkc]
        exact hmcp hqp


theorem unlinkNodesG_sym (d : Dialog) (now : Nat) (p c : String)
    (h : EdgeSymP d.nodes) : EdgeSymP (unlinkNodesG now p c d).nodes := by
  cases hP : getNode d.nodes p with
  | none =>
      simpa [unlinkNodesG, hP] using h
  | some P =>
  cases hC : getNode d.nodes c with
  | none =>
      simpa [unlinkNodesG, hP, hC] using h
  | some C =>
  set fA : DialogNode → DialogNode := fun v =>
    { v with childNodeIds := v.childNodeIds.filter (fun i => i != c) } with hfA
  set fB : DialogNode → DialogNode := fun v =>
    { v with parentNodeIds := v.parentNodeIds.filter (fun i => i != p) } with hfB
  have hnodes : (unlinkNodesG now p c d).nodes =
      updateEntry (updateEntry d.nodes p fA) c fB := by
    simp only [unlinkNodesG, hP, hC]
  rw [hnodes]
  have hlook : ∀ x m, getNode (updateEntry (updateEntry d.nodes p fA) c fB) x = some m →
      ∃ m0, getNode d.nodes x = some m0 ∧
        m.childNodeIds =
          (if x = p then m0.childNodeIds.filter (fun i => i != c) else m0.childNodeIds) ∧
        m.parentNodeIds =
          (if x = c then m0.parentNodeIds.filter (fun i => i != p) else m0.parentNodeIds) := by
    intro x m hm
    rw [getNode_updateEntry, getNode_updateEntry] at hm
    by_cases hxc : x = c <;> by_cases hxp : x = p
    · subst hxc
      rw [if_pos rfl, if_pos hxp, hC] at hm
      simp only [Option.map_some', Option.some.injEq] at hm
      exact ⟨C, hC, by rw [← hm, if_pos hxp], by rw [← hm, if_pos rfl]⟩
    · subst hxc
      rw [if_pos rfl, if_neg hxp, hC] at hm
      simp only [Option.map_some', Option.some.injEq] at hm
      exact ⟨C, hC, by rw [← hm, if_neg hxp], by rw [← hm, if_pos rfl]⟩
    · subst hxp
      rw [if_neg hxc, if_pos rfl, hP] at hm
      simp only [Option.map_some', Option.some.injEq] at hm
      exact ⟨P, hP, by rw [← hm, if_pos rfl], by rw [← hm, if_neg hxc]⟩
    · rw [if_neg hxc, if_neg hxp] at hm
      cases hx0 : getNode d.nodes x with
      | none => rw [hx0] at hm; simp at hm
      | some m0 =>
          rw [hx0] at hm
          simp only [Option.map_some', Option.some.injEq] at hm
          exact ⟨m0, rfl, by rw [← hm, if_neg hxp], by rw [← hm, if_neg hxc]⟩
  intro pr' hpr'
  obtain ⟨pr1, hpr1, hq1⟩ := mem_updateEntry _ _ _ _ hpr'
  obtain ⟨pr0, hpr0, hq0⟩ := mem_updateEntry _ _ _ _ hpr1
  obtain ⟨hsym1, hsym2⟩ := h pr0 hpr0
  have hkey1 : pr'.1 = pr1.1 := by
    rw [hq1]
    split <;> rfl
  have hkey0 : pr1.1 = pr0.1 := by
    rw [hq0]
    split <;> rfl
  have hkey : pr'.1 = pr0.1 := hkey1.trans hkey0
  have hv1 : pr'.2 = if pr1.1 = c then fB pr1.2 else pr1.2 := by
    rw [hq1]
    split <;> rfl
  have hv0 : pr1.2 = if pr0.1 = p then fA pr0.2 else pr0.2 := by
    rw [hq0]
    split <;> rfl
  have hchild : pr'.2.childNodeIds = pr0.2.childNodeIds ∨
      pr'.2.childNodeIds = pr0.2.childNodeIds.filter (fun i => i != c) := by
    have h1 : pr'.2.childNodeIds = pr1.2.childNodeIds := by
      rw [hv1]
      split <;> rfl
    rw [h1, hv0]
    by_cases h0 : pr0.1 = p
    · rw [if_pos h0]
      exact Or.inr rfl
    · rw [if_neg h0]
      exact Or.inl rfl
  have hparent : pr'.2.parentNodeIds = pr0.2.parentNodeIds ∨
      pr'.2.parentNodeIds = pr0.2.parentNodeIds.filter (fun i => i != p) := by
    have h1 : pr1.2.parentNodeIds = pr0.2.parentNodeIds := by
      rw [hv0]
      split <;> rfl
    rw [hv1]
    by_cases hc1 : pr1.1 = c
    · rw [if_pos hc1]
      exact Or.inr (by rw [← h1])
    · rw [if_neg hc1]
      exact Or.inl h1
  constructor
  · intro ch hch m hm
    obtain ⟨m0, hm0, _, hmp⟩ := hlook ch m hm
    have hch0 : ch ∈ pr0.2.childNodeIds ∧ (ch = c → False) ∨ ch ∈ pr0.2.childNodeIds := by
      rcases hchild with h1 | h1
      · rw [h1] at hch
        exact Or.inr hch
      · rw [h1] at hch
        obtain ⟨hin, hne⟩ := List.mem_filter.mp hch
        exact Or.inl ⟨hin, fun he => by simp [he] at hne⟩
    rw [hkey, hmp]
    rcases hch0 with ⟨hin, hnc⟩ | hin
    · have hk0 := hsym1 ch hin m0 hm0
      rw [if_neg (fun he => hnc he)]
      exact hk0
    · have hk0 := hsym1 ch hin m0 hm0
      by_cases hcc : ch = c
      · rw [if_pos hcc]
        -- the entry key is not p here unless filtering kept it; distinguish
        rcases hchild with h1 | h1
        · -- child list unchanged, so this entry was not the p-entry or p-filter did not apply;
          -- key may still be p only if pr0.1 ≠ p, in which case pr0.1 ≠ p
          by_cases hkp : pr0.1 = p
          · -- entry with key p kept ch = c in its list only if list was unchanged;
            -- but when pr0.1 = p the list is the filtered one, contradiction with h1?
            -- h1 says unchanged; both can hold when filtering removes nothing,
            -- yet then c was not in the list, contradicting hin ∘ hcc
            exfalso
            have hv1c : pr'.2.childNodeIds = pr1.2.childNodeIds := by
              rw [hv1]
              split <;> rfl
            have : pr'.2.childNodeIds = pr0.2.childNodeIds.filter (fun i => i != c) := by
              rw [hv1c, hv0, if_pos hkp]
            rw [h1] at this
            have hcmem : c ∈ pr0.2.childNodeIds := hcc ▸ hin
            have := this ▸ hcmem
            obtain ⟨_, hne⟩ := List.mem_filter.mp this
            simp at hne
          · exact List.mem_filter.mpr ⟨hk0, bne_true_of_ne hkp⟩
        · rw [h1] at hch
          obtain ⟨_, hne⟩ := List.mem_filter.mp hch
          rw [hcc] at hne
          simp at hne
      · rw [if_neg hcc]
        exact hk0
  · intro q hq m hm
    obtain ⟨m0, hm0, hmc, _⟩ := hlook q m hm
    have hq0m : q ∈ pr0.2.parentNodeIds ∧ (q = p → False) ∨ q ∈ pr0.2.parentNodeIds := by
      rcases hparent with h1 | h1
      · rw [h1] at hq
        exact Or.inr hq
      · rw [h1] at hq
        obtain ⟨hin, hne⟩ := List.mem_filter.mp hq
        exact Or.inl ⟨hin, fun he => by simp [he] at hne⟩
    rw [hkey, hmc]
    rcases hq0m with ⟨hin, hnp⟩ | hin
    · have hk0 := hsym2 q hin m0 hm0
      rw [if_neg (fun he => hnp he)]
      exact hk0
    · have hk0 := hsym2 q hin m0 hm0
      by_cases hqp : q = p
      · rw [if_pos hqp]
        rcases hparent with h1 | h1
        · by_cases hkc : pr0.1 = c
          · exfalso
            have hv1p : pr1.2.parentNodeIds = pr0.2.parentNodeIds := by
              rw [hv0]
              split <;> rfl
            have hkc1 : pr1.1 = c := hkey0.trans hkc
            have : pr'.2.parentNodeIds = pr0.2.parentNodeIds.filter (fun i => i != p) := by
              rw [hv1, if_pos hkc1, ← hv1p]
            rw [h1] at this
            have hpmem : p ∈ pr0.2.parentNodeIds := hqp ▸ hin
            have := this ▸ hpmem
            obtain ⟨_, hne⟩ := List.mem_filter.mp this
            simp at hne
          · exact List.mem_filter.mpr ⟨hk0, bne_true_of_ne hkc⟩
        · rw [h1] at hq
          obtain ⟨_, hne⟩ := List.mem_filter.mp hq
          rw [hqp] at hne
          simp at hne
      · rw [if_neg hqp]
        exact hk0


theorem deleteNodeG_sym (d : Dialog) (now : Nat) (r : String)
    (h : EdgeSymP d.nodes) : EdgeSymP (deleteNodeG now r d).nodes := by
  cases hn : getNode d.nodes r with
  | none => simpa [deleteNodeG, hn] using h
  | some n =>
  obtain ⟨_, hnone, hspec⟩ := deleteNodeG_spec d now r n hn
  set g1 : String × DialogNode → String × DialogNode := fun pr =>
    if pr.1 ∈ n.parentNodeIds then (pr.1, stripChild r pr.2) else pr with hg1
  set g2 : String × DialogNode → String × DialogNode := fun pr =>
    if pr.1 ∈ n.childNodeIds then (pr.1, stripParent r pr.2) else pr with hg2
  have hdel : deleteNodeG now r d =
      { d with
          nodes := removeEntry
            (n.childNodeIds.foldl
              (fun acc cid => updateEntry acc cid (stripParent r))
              (n.parentNodeIds.foldl
                (fun acc pid => updateEntry acc pid (stripChild r)) d.nodes)) r,
          updatedAt := now } := by
    unfold deleteNodeG
    rw [hn]
  have hshape : (deleteNodeG now r d).nodes =
      removeEntry ((d.nodes.map g1).map g2) r := by
    rw [hdel]
    dsimp only
    rw [foldl_updateEntry_eq_map _ _ (stripChild_idem r),
        foldl_updateEntry_eq_map _ _ (stripParent_idem r)]
  intro pr' hpr'
  rw [hshape] at hpr'
  unfold removeEntry at hpr'
  obtain ⟨hmem2, hner⟩ := List.mem_filter.mp hpr'
  have hkner : ¬pr'.1 = r := by
    intro he
    rw [bne_false_of_eq he] at hner
    exact Bool.false_ne_true hner
  obtain ⟨pr1, hpr1, hq1⟩ := List.mem_map.mp hmem2
  obtain ⟨pr0, hpr0, hq0⟩ := List.mem_map.mp hpr1
  obtain ⟨hsym1, hsym2⟩ := h pr0 hpr0
  have hkey1 : pr1.1 = pr0.1 := by
    rw [← hq0]
    simp only [hg1]
    split <;> rfl
  have hkey2 : pr'.1 = pr1.1 := by
    rw [← hq1]
    simp only [hg2]
    split <;> rfl
  have hkey : pr'.1 = pr0.1 := hkey2.trans hkey1
  have hchild : pr'.2.childNodeIds = pr0.2.childNodeIds ∨
      pr'.2.childNodeIds = pr0.2.childNodeIds.filter (fun i => i != r) := by
    have h2 : pr'.2.childNodeIds = pr1.2.childNodeIds := by
      rw [← hq1]
      simp only [hg2]
      split
      · rfl
      · rfl
    rw [h2, ← hq0]
    simp only [hg1]
    split
    · exact Or.inr rfl
    · exact Or.inl rfl
  have hparent : pr'.2.parentNodeIds = pr0.2.parentNodeIds ∨
      pr'.2.parentNodeIds = pr0.2.parentNodeIds.filter (fun i => i != r) := by
    have h1 : pr1.2.parentNodeIds = pr0.2.parentNodeIds := by
      rw [← hq0]
      simp only [hg1]
      split <;> rfl
    rw [← hq1]
    simp only [hg2]
    split
    · simp only [stripParent]
      rw [h1]
      exact Or.inr rfl
    · exact Or.inl h1
  constructor
  · intro ch hch m hm
    by_cases hchr : ch = r
    · rw [hchr, hnone] at hm
      exact absurd hm (by simp)
    · obtain ⟨m0, hm0, hmeq⟩ : ∃ m0, getNode d.nodes ch = some m0 ∧
          m = { m0 with
              childNodeIds :=
                if ch ∈ n.parentNodeIds then m0.childNodeIds.filter (fun i => i != r)
                else m0.childNodeIds,
              parentNodeIds :=
                if ch ∈ n.childNodeIds then m0.parentNodeIds.filter (fun i => i != r)
                else m0.parentNodeIds } := by
        have hsp := hspec ch hchr
        rw [hm] at hsp
        cases hg : getNode d.nodes ch with
        | none => rw [hg] at hsp; exact absurd hsp.symm (by simp)
        | some m0 =>
            rw [hg] at hsp
            simp only [Option.map_some'] at hsp
            exact ⟨m0, rfl, Option.some.inj hsp⟩
      have hch0 : ch ∈ pr0.2.childNodeIds := by
        rcases hchild with h1 | h1
        · rw [h1] at hch
          exact hch
        · rw [h1] at hch
          exact (List.mem_filter.mp hch).1
      have hk0 := hsym1 ch hch0 m0 hm0
      rw [hmeq, hkey]
      by_cases hcn : ch ∈ n.childNodeIds
      · simp only [hcn, if_true]
        exact List.mem_filter.mpr ⟨hk0, bne_true_of_ne (hkey ▸ hkner)⟩
      · simp only [hcn, if_false]
        exact hk0
  · intro q hq m hm
    by_cases hqr : q = r
    · rw [hqr, hnone] at hm
      exact absurd hm (by simp)
    · obtain ⟨m0, hm0, hmeq⟩ : ∃ m0, getNode d.nodes q = some m0 ∧
          m = { m0 with
              childNodeIds :=
                if q ∈ n.parentNodeIds then m0.childNodeIds.filter (fun i => i != r)
                else m0.childNodeIds,
              parentNodeIds :=
                if q ∈ n.childNodeIds then m0.parentNodeIds.filter (fun i => i != r)
                else m0.parentNodeIds } := by
        have hsp := hspec q hqr
        rw [hm] at hsp
        cases hg : getNode d.nodes q with
        | none => rw [hg] at hsp; exact absurd hsp.symm (by simp)
        | some m0 =>
            rw [hg] at hsp
            simp only [Option.map_some'] at hsp
            exact ⟨m0, rfl, Option.some.inj hsp⟩
      have hq0 : q ∈ pr0.2.parentNodeIds := by
        rcases hparent with h1 | h1
        · rw [h1] at hq
          exact hq
        · rw [h1] at hq
          exact (List.mem_filter.mp hq).1
      have hk0 := hsym2 q hq0 m0 hm0
      rw [hmeq, hkey]
      by_cases hqn : q ∈ n.parentNodeIds
      · simp only [hqn, if_true]
        exact List.mem_filter.mpr ⟨hk0, bne_true_of_ne (hkey ▸ hkner)⟩
      · simp only [hqn, if_false]
        exact hk0

theorem getNode_mem (l : List (String × DialogNode)) (k : String) (v : DialogNode)
    (h : getNode l k = some v) : (k, v) ∈ l := by
  unfold getNode at h
  cases hf : l.find? (fun p => p.1 == k) with
  | none => rw [hf] at h; exact absurd h (by simp)
  | some pr =>
      rw [hf] at h
      simp only [Option.map_some'] at h
      have hpred := List.find?_some hf
      have hmem : pr ∈ l := List.mem_of_find?_eq_some hf
      have hk : pr.1 = k := by simpa using hpred
      have hpr : pr = (k, v) := by
        cases pr with
        | mk a b =>
            simp only at hk h
            rw [hk, Option.some.injEq] at *
            rw [hk, h]
      rw [← hpr]
      exact hmem

theorem addNodeG_sym (d : Dialog) (now : Nat) (n : DialogNode)
    (hch : n.childNodeIds = []) (hpar : n.parentNodeIds = [])
    (hfresh : getNode d.nodes n.id = none)
    (hnoref : ∀ pr ∈ d.nodes, n.id ∉ pr.2.childNodeIds ∧ n.id ∉ pr.2.parentNodeIds)
    (h : EdgeSymP d.nodes) : EdgeSymP (addNodeG now n d).nodes := by
  have hnodes : (addNodeG now n d).nodes = setEntry d.nodes n.id n := by
    unfold addNodeG
    dsimp only
    split <;> rfl
  have hany : d.nodes.any (fun p => p.1 == n.id) = false := by
    cases hq : d.nodes.any (fun p => p.1 == n.id)
    · rfl
    · exact absurd ((getNode_isSome_any _ _).mpr hq) (by simp [hfresh])
  have hset : setEntry d.nodes n.id n = d.nodes ++ [(n.id, n)] := by
    rw [setEntry_eq]
    simp [hany]
  rw [hnodes, hset]
  intro pr' hpr'
  rcases List.mem_append.mp hpr' with hold | hnew
  · obtain ⟨hs1, hs2⟩ := h pr' hold
    constructor
    · intro c hc m hm
      cases hg : getNode d.nodes c with
      | none =>
          rw [getNode_append_right _ _ _ hg] at hm
          by_cases hcn : (n.id, n).1 = c
          · have hcn2 : n.id = c := hcn
            rw [← hcn2] at hc
            exact absurd hc (hnoref pr' hold).1
          · rw [if_neg hcn] at hm
            exact absurd hm (by simp)
      | some w =>
          rw [getNode_append_left _ _ _ _ hg] at hm
          have hw : m = w := by injection hm with hh; exact hh.symm
          rw [hw]
          exact hs1 c hc w hg
    · intro q hq m hm
      cases hg : getNode d.nodes q with
      | none =>
          rw [getNode_append_right _ _ _ hg] at hm
          by_cases hqn : (n.id, n).1 = q
          · have hqn2 : n.id = q := hqn
            rw [← hqn2] at hq
            exact absurd hq (hnoref pr' hold).2
          · rw [if_neg hqn] at hm
            exact absurd hm (by simp)
      | some w =>
          rw [getNode_append_left _ _ _ _ hg] at hm
          have hw : m = w := by injection hm with hh; exact hh.symm
          rw [hw]
          exact hs2 q hq w hg
  · have hpr : pr' = (n.id, n) := by simpa using hnew
    rw [hpr]
    constructor
    · intro c hc
      rw [hch] at hc
      exact absurd hc (List.not_mem_nil c)
    · intro q hq
      rw [hpar] at hq
      exact absurd hq (List.not_mem_nil q)

theorem updateNodeG_sym (d : Dialog) (now : Nat) (nodeId : String) (u : NodeUpdates)
    (huc : u.childNodeIds = none) (hup : u.parentNodeIds = none)
    (h : EdgeSymP d.nodes) : EdgeSymP (updateNodeG now nodeId u d).nodes := by
  cases hn : getNode d.nodes nodeId with
  | none => simpa [updateNodeG, hn] using h
  | some n =>
  have hany : d.nodes.any (fun p => p.1 == nodeId) = true :=
    (getNode_isSome_any _ _).mp (by simp [hn])
  have hnodes : (updateNodeG now nodeId u d).nodes =
      updateEntry d.nodes nodeId (fun _ => applyUpdates now n u) := by
    unfold updateNodeG
    rw [hn]
    dsimp only
    rw [setEntry_eq]
    simp [hany]
  have hach : (applyUpdates now n u).childNodeIds = n.childNodeIds := by
    simp [applyUpdates, huc]
  have hapar : (applyUpdates now n u).parentNodeIds = n.parentNodeIds := by
    simp [applyUpdates, hup]
  obtain ⟨hn1, hn2⟩ := h (nodeId, n) (getNode_mem _ _ _ hn)
  intro pr' hpr'
  rw [hnodes] at hpr'
  obtain ⟨pr, hpr, hif⟩ := mem_updateEntry _ _ _ _ hpr'
  obtain ⟨hs1, hs2⟩ := h pr hpr
  by_cases hprk : pr.1 = nodeId
  · rw [if_pos hprk] at hif
    constructor
    · intro c hc m hm
      rw [hif] at hc
      dsimp only at hc
      rw [hach] at hc
      rw [hnodes, getNode_updateEntry] at hm
      rw [hif]
      dsimp only
      rw [hprk]
      by_cases hck : c = nodeId
      · rw [if_pos hck] at hm
        rw [hck, hn] at hm
        simp only [Option.map_some'] at hm
        have hmv : m = applyUpdates now n u := by
          injection hm with hh
          exact hh.symm
        rw [hmv]
        rw [hapar]
        exact hn1 c hc n (by rw [hck]; exact hn)
      · rw [if_neg hck] at hm
        exact hn1 c hc m hm
    · intro q hq m hm
      rw [hif] at hq
      dsimp only at hq
      rw [hapar] at hq
      rw [hnodes, getNode_updateEntry] at hm
      rw [hif]
      dsimp only
      rw [hprk]
      by_cases hqk : q = nodeId
      · rw [if_pos hqk] at hm
        rw [hqk, hn] at hm
        simp only [Option.map_some'] at hm
        have hmv : m = applyUpdates now n u := by
          injection hm with hh
          exact hh.symm
        rw [hmv]
        rw [hach]
        exact hn2 q hq n (by rw [hqk]; exact hn)
      · rw [if_neg hqk] at hm
        exact hn2 q hq m hm
  · rw [if_neg hprk] at hif
    rw [hif]
    constructor
    · intro c hc m hm
      rw [hnodes, getNode_updateEntry] at hm
      by_cases hck : c = nodeId
      · rw [if_pos hck] at hm
        rw [hck, hn] at hm
        simp only [Option.map_some'] at hm
        have hmv : m = applyUpdates now n u := by
          injection hm with hh
          exact hh.symm
        rw [hmv]
        rw [hapar]
        exact hs1 c hc n (by rw [hck]; exact hn)
      · rw [if_neg hck] at hm
        exact hs1 c hc m hm
    · intro q hq m hm
      rw [hnodes, getNode_updateEntry] at hm
      by_cases hqk : q = nodeId
      · rw [if_pos hqk] at hm
        rw [hqk, hn] at hm
        simp only [Option.map_some'] at hm
        have hmv : m = applyUpdates now n u := by
          injection hm with hh
          exact hh.symm
        rw [hmv]
        rw [hach]
        exact hs2 q hq n (by rw [hqk]; exact hn)
      · rw [if_neg hqk] at hm
        exact hs2 q hq m hm

theorem updateNodePositionsG_sym (d : Dialog) (now : Nat)
    (positions : List (String × NodePos)) (h : EdgeSymP d.nodes) :
    EdgeSymP (updateNodePositionsG now positions d).nodes := h


/-! ### Helper steps for the cyclic-graph claim -/

theorem cycPair (fuel : Nat) :
    convertNodeToRenPy exCtxCyc fuel "a" ["a", "b"] ⟨["a", "b"], []⟩ 1 false = none ∧
    convertNodeToRenPy exCtxCyc fuel "b" ["a", "b"] ⟨["a", "b"], []⟩ 1 false = none := by
  induction fuel with
  | zero => exact ⟨rfl, rfl⟩
  | succ fuel ih =>
      constructor
      · have hstep : convertNodeToRenPy exCtxCyc (fuel + 1) "a" ["a", "b"]
            ⟨["a", "b"], []⟩ 1 false =
            ((convertNodeToRenPy exCtxCyc fuel "b" ["a", "b"] ⟨["a", "b"], []⟩ 1 false).map
              (fun q => ([] ++ q.1, q.2.1, q.2.2))).map
              (fun r => (r.1, ["a", "b"], r.2.2)) := rfl
        rw [hstep, ih.2]
        rfl
      · have hstep : convertNodeToRenPy exCtxCyc (fuel + 1) "b" ["a", "b"]
            ⟨["a", "b"], []⟩ 1 false =
            ((convertNodeToRenPy exCtxCyc fuel "a" ["a", "b"] ⟨["a", "b"], []⟩ 1 false).map
              (fun q => ([] ++ q.1, q.2.1, q.2.2))).map
              (fun r => (r.1, ["a", "b"], r.2.2)) := rfl
        rw [hstep, ih.1]
        rfl

theorem cyc_root (fuel : Nat) :
    convertNodeToRenPy exCtxCyc fuel "a" [] ⟨[], []⟩ 1 false = none := by
  match fuel with
  | 0 => rfl
  | 1 => rfl
  | fuel + 2 =>
      have hb : convertNodeToRenPy exCtxCyc (fuel + 1) "b" ["a"] ⟨["a"], []⟩ 1 false = none := by
        have hstep : convertNodeToRenPy exCtxCyc (fuel + 1) "b" ["a"] ⟨["a"], []⟩ 1 false =
            ((convertNodeToRenPy exCtxCyc fuel "a" ["a", "b"] ⟨["a", "b"], []⟩ 1 false).map
              (fun q => ([sceneLine (indentStr 1) (jsTrim "hall"), ""] ++ q.1, q.2.1, q.2.2))).map
              (fun r => (r.1, ["a", "b"], r.2.2)) := rfl
        rw [hstep, (cycPair fuel).1]
        rfl
      have hstep : convertNodeToRenPy exCtxCyc (fuel + 2) "a" [] ⟨[], []⟩ 1 false =
          ((convertNodeToRenPy exCtxCyc (fuel + 1) "b" ["a"] ⟨["a"], []⟩ 1 false).map
            (fun q => ([sceneLine (indentStr 1) (jsTrim "room"), ""] ++ q.1, q.2.1, q.2.2))).map
            (fun r => (r.1, ["a"], r.2.2)) := rfl
      rw [hstep, hb]
      rfl

/-! ### The claim theorems -/

/-- C1, counterexample to the claim as stated: after `saveToHistory()`, a mutation,
and `undo()` alone, the live graph still holds the mutated text, not the
pre-mutation snapshot (`undo` is a no-op at index 0 and, after one save, the
index is 0). -/
theorem claim_C1_counterexample :
    ¬((undo (applyMutation exMutA (saveToHistory exStoreA))).currentDialog =
      some exDialogA) := by decide

/-- C1 (corrected): `saveToHistory()` snapshots the pre-mutation graph; after the
mutation a second `saveToHistory()` records the post-mutation graph, and then
`undo()` restores the pre-mutation snapshot while `redo()` restores the
post-mutation one. -/
theorem claim_C1 (s : StoreState) (g : Dialog) (m : Mutation)
    (h : s.currentDialog = some g) :
    (undo (saveToHistory (applyMutation m (saveToHistory s)))).currentDialog = some g ∧
    (redo (undo (saveToHistory (applyMutation m (saveToHistory s))))).currentDialog =
      some (m.onGraph g) :=
  claimCheck_C1 s g m h

theorem claim_C1_witness :
    exStoreA.currentDialog = some exDialogA ∧
    (undo (saveToHistory (applyMutation exMutA (saveToHistory exStoreA)))).currentDialog =
      some exDialogA ∧
    (redo (undo (saveToHistory (applyMutation exMutA (saveToHistory exStoreA))))).currentDialog =
      some (exMutA.onGraph exDialogA) :=
  ⟨rfl, (claim_C1 exStoreA exDialogA exMutA rfl).1, (claim_C1 exStoreA exDialogA exMutA rfl).2⟩

/-- C2, counterexample to the claim as stated: with 50 snapshots stored but the
index rewound to 10 by undos, `saveToHistory()` truncates the future instead of
evicting the oldest entry, leaving 12 snapshots, not 50. -/
theorem claim_C2_counterexample :
    exStoreB.history.length = 50 ∧
    ¬((saveToHistory exStoreB).history.length = 50) := by decide

/-- C2 (corrected): eviction of the oldest snapshot happens only when the index
sits at the top of a 50-entry history (then the count stays 50 and the index
stays 49); in general the count never exceeds 50 but can shrink, because
`saveToHistory()` first truncates every entry beyond the current index. -/
theorem claim_C2 (s t : StoreState) (d : Dialog) (hc : s.currentDialog = some d)
    (hlen : s.history.length = 50) (hidx : s.historyIndex = 49)
    (ht : t.history.length ≤ 50) :
    ((saveToHistory s).history = s.history.drop 1 ++ [d] ∧
     (saveToHistory s).history.length = 50 ∧
     (saveToHistory s).historyIndex = 49) ∧
    (saveToHistory t).history.length ≤ 50 :=
  ⟨claimCheck_C2 s d hc hlen hidx, saveToHistory_bound t ht⟩

theorem claim_C2_witness :
    exStoreC2.currentDialog = some exDialogA ∧
    exStoreC2.history.length = 50 ∧
    exStoreC2.historyIndex = 49 ∧
    exStoreB.history.length ≤ 50 ∧
    ((saveToHistory exStoreC2).history = exStoreC2.history.drop 1 ++ [exDialogA] ∧
     (saveToHistory exStoreC2).history.length = 50 ∧
     (saveToHistory exStoreC2).historyIndex = 49) ∧
    (saveToHistory exStoreB).history.length ≤ 50 :=
  ⟨rfl, by decide, rfl, by decide,
   (claim_C2 exStoreC2 exStoreB exDialogA rfl (by decide) rfl (by decide)).1,
   (claim_C2 exStoreC2 exStoreB exDialogA rfl (by decide) rfl (by decide)).2⟩

/-- C3, counterexample to the claim as stated: `addNode` with a node whose
`parentNodeIds` is non-empty installs a one-sided edge — the named parent never
learns of the child — so edge symmetry is broken. -/
theorem claim_C3_counterexample :
    EdgeSymP exDialogP.nodes ∧ ¬EdgeSymP (addNodeG 5 exNodeC exDialogP).nodes := by
  constructor
  · exact (edgeSymOK_iff _).mp (by decide)
  · intro hbad
    exact absurd ((edgeSymOK_iff _).mpr hbad) (by decide)

/-- C3 (corrected): edge symmetry is preserved by `deleteNode`, `linkNodes`,
`unlinkNodes` and `updateNodePositions` unconditionally, by `updateNode` when the
update leaves both edge lists untouched, and by `addNode` only when the added
node carries no edges, is fresh, and is unreferenced — not for an `addNode`
whose node lists parents. -/
theorem claim_C3 (d : Dialog) (now : Nat) (p c r nodeId : String) (n : DialogNode)
    (u : NodeUpdates) (positions : List (String × NodePos))
    (h : EdgeSymP d.nodes)
    (hch : n.childNodeIds = []) (hpar : n.parentNodeIds = [])
    (hfresh : getNode d.nodes n.id = none)
    (hnoref : ∀ pr ∈ d.nodes, n.id ∉ pr.2.childNodeIds ∧ n.id ∉ pr.2.parentNodeIds)
    (huc : u.childNodeIds = none) (hup : u.parentNodeIds = none) :
    EdgeSymP (addNodeG now n d).nodes ∧
    EdgeSymP (updateNodeG now nodeId u d).nodes ∧
    EdgeSymP (deleteNodeG now r d).nodes ∧
    EdgeSymP (linkNodesG now p c d).nodes ∧
    EdgeSymP (unlinkNodesG now p c d).nodes ∧
    EdgeSymP (updateNodePositionsG now positions d).nodes :=
  ⟨addNodeG_sym d now n hch hpar hfresh hnoref h,
   updateNodeG_sym d now nodeId u huc hup h,
   deleteNodeG_sym d now r h,
   linkNodesG_sym d now p c h,
   unlinkNodesG_sym d now p c h,
   updateNodePositionsG_sym d now positions h⟩

theorem claim_C3_witness :
    EdgeSymP exDialogPC.nodes ∧
    EdgeSymP (addNodeG 1 exNodeZ exDialogPC).nodes ∧
    EdgeSymP (updateNodeG 1 "p" {} exDialogPC).nodes ∧
    EdgeSymP (deleteNodeG 1 "p" exDialogPC).nodes ∧
    EdgeSymP (linkNodesG 1 "p" "c" exDialogPC).nodes ∧
    EdgeSymP (unlinkNodesG 1 "p" "c" exDialogPC).nodes ∧
    EdgeSymP (updateNodePositionsG 1 [] exDialogPC).nodes := by
  have hres := claim_C3 exDialogPC 1 "p" "c" "p" "p" exNodeZ {} []
    ((edgeSymOK_iff _).mp (by decide)) rfl rfl rfl (by decide) rfl rfl
  exact ⟨(edgeSymOK_iff _).mp (by decide), hres.1, hres.2.1, hres.2.2.1,
         hres.2.2.2.1, hres.2.2.2.2.1, hres.2.2.2.2.2⟩

/-- C4, counterexample to the claim as stated: when the edge `p → c` already
exists, `linkNodes` is a guarded no-op but `unlinkNodes` removes the
pre-existing edge, so the round trip does not restore the prior state. -/
theorem claim_C4_counterexample :
    "c" ∈ exNodeP2.childNodeIds ∧
    getNode exDialogPC.nodes "p" = some exNodeP2 ∧
    ¬(getNode (unlinkNodesG 3 "p" "c" (linkNodesG 2 "p" "c" exDialogPC)).nodes "p" =
      some exNodeP2) := by decide

/-- C4 (corrected): for existing nodes `p ≠ c`, `linkNodes(p,c)` followed by
`unlinkNodes(p,c)` restores both nodes' edge lists and every other entry —
provided the edge `p → c` did not already exist beforehand. -/
theorem claim_C4 (d : Dialog) (n1 n2 : Nat) (p c : String) (P C : DialogNode)
    (hP : getNode d.nodes p = some P) (hC : getNode d.nodes c = some C)
    (hpc : ¬p = c) (hcP : c ∉ P.childNodeIds) (hpC : p ∉ C.parentNodeIds) :
    getNode (unlinkNodesG n2 p c (linkNodesG n1 p c d)).nodes p = some P ∧
    getNode (unlinkNodesG n2 p c (linkNodesG n1 p c d)).nodes c = some C ∧
    ∀ x, ¬x = p → ¬x = c →
      getNode (unlinkNodesG n2 p c (linkNodesG n1 p c d)).nodes x = getNode d.nodes x :=
  linkUnlink_roundtrip d n1 n2 p c P C hP hC hpc hcP hpC

theorem claim_C4_witness :
    getNode exDialogPQ.nodes "p" = some exNodeP ∧
    getNode exDialogPQ.nodes "q" = some exNodeQ ∧
    getNode (unlinkNodesG 3 "p" "q" (linkNodesG 2 "p" "q" exDialogPQ)).nodes "p" =
      some exNodeP ∧
    getNode (unlinkNodesG 3 "p" "q" (linkNodesG 2 "p" "q" exDialogPQ)).nodes "q" =
      some exNodeQ :=
  ⟨rfl, rfl,
   (claim_C4 exDialogPQ 2 3 "p" "q" exNodeP exNodeQ rfl rfl (by decide) (by decide)
     (by decide)).1,
   (claim_C4 exDialogPQ 2 3 "p" "q" exNodeP exNodeQ rfl rfl (by decide) (by decide)
     (by decide)).2.1⟩

/-- C5 (code bug): the source builds the full path-plus-side-effect set in its
`result` accumulator but then discards it; the returned `orderedResult` holds
only the path nodes and special direct children, dropping side-effect parents
such as `v` here, contrary to the documented contract. -/
theorem claim_C5 :
    (getAllReachableNodes exDialogC5.nodes exDialogC5.rootNodeId "r").map
      (fun n => n.id) = ["r"] ∧
    (reachableInternalResult exDialogC5.nodes
      (getNodePath exDialogC5.nodes exDialogC5.rootNodeId "r")).map
      (fun n => n.id) = ["r", "v"] := by decide

/-- C6 (confirmed): `applyVarNode` lets a `setVariable` node overwrite
unconditionally, treats a never-set variable as absent and stores the delta (or
its negation for `subtract`), leaves a non-numeric current value unchanged, and
`calculateVariables` is exactly the in-order fold of the reachable set. -/
theorem claim_C6 (vars : List (String × Value)) (node : DialogNode) (name : String)
    (hname : node.variableName = some name)
    (hnf : strOptFalsy node.variableName = false)
    (nodes : List (String × DialogNode)) (root : Option String) (target : String) :
    (node.type = some NType.setVariable → ∀ v, node.variableValue = some v →
        applyVarNode vars node = varSet vars name v) ∧
    (node.type = some NType.changeVariable → varGet vars name = none →
        (jsOrZero node.variableValue).isNumberType = true →
        applyVarNode vars node =
          if node.variableOperation == some VOp.subtract then
            varSet vars name (jsNeg (jsOrZero node.variableValue))
          else varSet vars name (jsOrZero node.variableValue)) ∧
    (∀ cv, node.type = some NType.changeVariable → varGet vars name = some cv →
        cv.isNumberType = false → applyVarNode vars node = vars) ∧
    calculateVariables nodes root target =
      (getAllReachableNodes nodes root target).foldl applyVarNode [] := by
  have hnf2 : strOptFalsy (some name) = false := by rw [← hname]; exact hnf
  refine ⟨?_, ?_, ?_, rfl⟩
  · intro ht v hv
    simp [applyVarNode, ht, hname, hnf2, hv]
  · intro ht hcur hnum
    simp [applyVarNode, ht, hname, hnf2, hcur, hnum]
  · intro cv ht hcur hcnum
    simp [applyVarNode, ht, hname, hnf2, hcur, hcnum]

theorem claim_C6_witness :
    exChg5.variableName = some "x" ∧
    strOptFalsy exChg5.variableName = false ∧
    varGet [] "x" = none ∧
    applyVarNode [] exChg5 =
      (if exChg5.variableOperation == some VOp.subtract then
        varSet [] "x" (jsNeg (jsOrZero exChg5.variableValue))
      else varSet [] "x" (jsOrZero exChg5.variableValue)) :=
  ⟨rfl, rfl, rfl,
   (claim_C6 [] exChg5 "x" rfl rfl [] none "t").2.1 rfl rfl rfl⟩

/-- C7, counterexample to the claim as stated: in a graph where the two parents
of the shared node are unreachable from the root, `nodesNeedingLabels` still
marks the shared node, but the compiled output contains no label block and no
jump for it at all — not "exactly one label block". -/
theorem claim_C7_counterexample :
    nodesNeedingLabels exDialogB0 = ["s"] ∧
    (exportToRenPy (exDialogB0.nodes.length + 5) exDialogB0 [] []).map
      (fun lines =>
        ((lines.filter (fun l => l == "label node_s:")).length,
         (lines.filter (fun l => l == "            jump node_s")).length,
         (lines.filter (fun l => l == "    jump node_s")).length)) =
      some (0, 0, 0) := by decide

/-- C7 (corrected): when both reference sites are reachable from the root
(spec Scenario B), the compiled output holds exactly one `label node_s:` block
carrying the shared node's line and exactly one jump per reference site, with
the shared content never inlined at the reference indent. -/
theorem claim_C7 :
    (exportToRenPy (exDialogB.nodes.length + 5) exDialogB [] []).map
      (fun lines =>
        ((lines.filter (fun l => l == "            jump node_s")).length,
         (lines.filter (fun l => l == "label node_s:")).length,
         (lines.filter (fun l => l == "    \x22SHARED\x22")).length,
         (lines.filter (fun l => l == "            \x22SHARED\x22")).length)) =
      some (2, 1, 1, 0) := by decide

/-- C8 (code bug): `collectVariables` reads `node.conditionVariable` in its
switch-case branch, so a switch node built by the UI (which sets
`switchVariable`) contributes nothing; the output then tests `hp` without ever
initializing it. -/
theorem claim_C8 :
    exSwitch.switchVariable = some "hp" ∧
    exSwitch.conditionVariable = none ∧
    (collectVariables exDialogC8.nodes (exDialogC8.nodes.length + 2) "w" ([], [])).2 = [] ∧
    (exportToRenPy (exDialogC8.nodes.length + 5) exDialogC8 [] []).map
      (fun lines =>
        ((lines.filter (fun l => l == "    if hp == 1:")).length,
         (lines.filter (fun l => l == "    $ hp = 0")).length)) = some (1, 0) := by decide

/-- C9 (code bug): on a structurally valid two-node cycle of set-background
nodes, `convertNodeToRenPy` recurses into every child with no cycle guard on
special nodes, so compilation exceeds every recursion-depth budget:
`exportToRenPy` returns `none` for every fuel instead of a complete document. -/
theorem claim_C9 (fuel : Nat) : exportToRenPy fuel exDialogCyc [] [] = none := by
  have hred : exportToRenPy fuel exDialogCyc [] [] =
      ((convertNodeToRenPy exCtxCyc fuel "a" [] ⟨[], []⟩ 1 false).map
        (fun r => (r.1, r.2.2))) >>= (fun main =>
        (processLabels exCtxCyc fuel 0 [] main.2).map
          (fun labels =>
            ["# The script of the game goes in this file.", "", ""] ++
            ["transform half_size:", "    zoom 1.3", "    xalign 0.5", "    yalign 0.0", "",
             "# The game starts here.", "", "label start:", ""] ++
            main.1 ++ ["", "    # This ends the game.", "    return", ""] ++ labels.1)) := rfl
  rw [hred, cyc_root fuel]
  rfl

/-- C10 (confirmed): deleting the root node removes its entry and strips it from
every neighbor's edge lists, while `rootNodeId` keeps naming the now-missing
node — root repair happens only on a wholesale load. -/
theorem claim_C10 (d : Dialog) (now : Nat) (r : String) (n : DialogNode)
    (hroot : d.rootNodeId = some r) (hn : getNode d.nodes r = some n) :
    (deleteNodeG now r d).rootNodeId = some r ∧
    getNode (deleteNodeG now r d).nodes r = none ∧
    ∀ x, ¬x = r → getNode (deleteNodeG now r d).nodes x =
      (getNode d.nodes x).map (fun v =>
        { v with
            childNodeIds :=
              if x ∈ n.parentNodeIds then v.childNodeIds.filter (fun i => i != r)
              else v.childNodeIds,
            parentNodeIds :=
              if x ∈ n.childNodeIds then v.parentNodeIds.filter (fun i => i != r)
              else v.parentNodeIds }) := by
  obtain ⟨h1, h2, h3⟩ := deleteNodeG_spec d now r n hn
  exact ⟨hroot ▸ h1, h2, h3⟩

theorem claim_C10_witness :
    exDialogPC.rootNodeId = some "p" ∧
    getNode exDialogPC.nodes "p" = some exNodeP2 ∧
    (deleteNodeG 9 "p" exDialogPC).rootNodeId = some "p" ∧
    getNode (deleteNodeG 9 "p" exDialogPC).nodes "p" = none ∧
    getNode (deleteNodeG 9 "p" exDialogPC).nodes "c" =
      (getNode exDialogPC.nodes "c").map (fun v =>
        { v with
            childNodeIds :=
              if "c" ∈ exNodeP2.parentNodeIds then v.childNodeIds.filter (fun i => i != "p")
              else v.childNodeIds,
            parentNodeIds :=
              if "c" ∈ exNodeP2.childNodeIds then v.parentNodeIds.filter (fun i => i != "p")
              else v.parentNodeIds }) :=
  ⟨rfl, rfl,
   (claim_C10 exDialogPC 9 "p" exNodeP2 rfl rfl).1,
   (claim_C10 exDialogPC 9 "p" exNodeP2 rfl rfl).2.1,
   (claim_C10 exDialogPC 9 "p" exNodeP2 rfl rfl).2.2 "c" (by decide)⟩

end PersonaForge
